import Mathlib

/-!
Verification development for the ACIS SAB binary decoder
(`src/ezdxf/_acis/sab.py`).

Modelling conventions (shallow embedding of the Python source):

* A byte buffer is a `List Nat` (each element a byte value `< 256` in real
  inputs; the decoder compares and copies bytes, it never wraps them).
* Decoded text is kept as its raw byte sequence (`List Nat`): the source
  calls `bytes.decode()`, which validates the bytes as UTF-8 — raising
  `UnicodeDecodeError` otherwise, modelled by `isValidUtf8` — and is the
  identity re-presentation on well-formed UTF-8; the spec's round-trip
  properties are byte-for-byte.
* An IEEE-754 double is kept as its 64-bit little-endian bit pattern (a
  `Nat < 2^64`): `struct.unpack("<d", ...)` is a bijection between 8-byte
  strings and bit patterns, and the spec's round-trips are bit-for-bit.
* Python exceptions become the `Err` sum: `ParsingError`, `IndexError`
  (sequence subscript out of range), `struct.error` (unpack buffer too
  short), `TypeError` (list subscript of a non-integer).  `Err.fuel` is the
  artifact of bounding the source's `while True` loops; it is unreachable
  for the fuel values the top-level entry points pass.
* Mutation of the decoder / of entities becomes explicit state passing:
  each method returns its result together with the updated object.
* Python object identity for entities is positional: `build_entities`
  creates one fresh object per record, so two resolved references denote
  the same object iff they are the same `EntityRef` (`nullPtr`, the single
  module-level `NULL_PTR` sentinel, or `idx i`, the object at list index
  `i`).
-/

deriving instance DecidableEq for Except

namespace SabSpec

/-- The signature `b"ACIS BinaryFile"` (DXF R2013) as bytes. -/
def acisSignature : List Nat :=
  [65, 67, 73, 83, 32, 66, 105, 110, 97, 114, 121, 70, 105, 108, 101]

/-- The signature `b"ASM BinaryFile4"` (DXF R2018) as bytes. -/
def asmSignature : List Nat :=
  [65, 83, 77, 32, 66, 105, 110, 97, 114, 121, 70, 105, 108, 101, 52]

/-- Modelled from the spec: `DATA_END_MARKERS` from `ezdxf._acis.const`
(the module is not under `src/`); the spec names the ACIS- and
ASM-flavored end-of-data sentinel strings, and the spec's concrete
scenario names `"End-of-ACIS-data"`.  Bytes of `"End-of-ACIS-data"`. -/
def endOfAcisData : List Nat :=
  [69, 110, 100, 45, 111, 102, 45, 65, 67, 73, 83, 45, 100, 97, 116, 97]

/-- Bytes of `"End-of-ASM-data"` (see `endOfAcisData`). -/
def endOfAsmData : List Nat :=
  [69, 110, 100, 45, 111, 102, 45, 65, 83, 77, 45, 100, 97, 116, 97]

/-! Modelled from the spec: the numeric tag values of `Tags` from
`ezdxf._acis.const` (the module is not under `src/`).  `STR = 7` and
`DOUBLE = 6` are fixed by the source's own error messages
(`"string tag (7) not found"`, `"double tag (6) not found"`), and
`UNKNOWN_0x17 = 0x17` by its name; the remaining values are chosen
distinct, which is all the decoder's dispatch depends on. -/
namespace Tags

def INT : Nat := 0x04
def DOUBLE : Nat := 0x06
def STR : Nat := 0x07
def LITERAL_STR : Nat := 0x08
def BOOL_TRUE : Nat := 0x0A
def BOOL_FALSE : Nat := 0x0B
def POINTER : Nat := 0x0C
def ENTITY_TYPE_EX : Nat := 0x0D
def ENTITY_TYPE : Nat := 0x0E
def SUBTYPE_START : Nat := 0x0F
def SUBTYPE_END : Nat := 0x10
def RECORD_END : Nat := 0x11
def LOCATION_VEC : Nat := 0x13
def DIRECTION_VEC : Nat := 0x14
def ENUM : Nat := 0x15
def UNKNOWN_0x17 : Nat := 0x17

end Tags

/-- A reference to an entity of a resolved graph.  `nullPtr` is the single
module-level `NULL_PTR` sentinel object; `idx i` is the entity object
stored at position `i` of the builder's entity list.  Positional
addressing captures Python object identity: `build_entities` yields one
fresh object per record, so references are identical iff equal here. -/
inductive EntityRef
  | nullPtr
  | idx (i : Nat)
deriving DecidableEq, Repr

/-- The value slot of a `Token` (`Any` in the source; this sum is closed
over every value the decoder and the resolver ever store there). -/
inductive Value
  | int (n : Int)
  | double (bits : Nat)
  | str (s : List Nat)
  | vec3 (x y z : Nat)
  | bool (b : Bool)
  | entity (r : EntityRef)
deriving DecidableEq, Repr

/-- `Token`: a tagged value of the SAB format (a named tuple in the
source). -/
structure Token where
  tag : Nat
  value : Value
deriving DecidableEq, Repr

abbrev SabRecord := List Token

/-- The Python exceptions the decode path can raise: `ParsingError`,
`IndexError`, `struct.error`, `TypeError`, `UnicodeDecodeError` (from
`bytes.decode()`), `ValueError` (from `datetime.strptime`).  `fuel` is a
model artifact standing for divergence of a `while True` loop (never
reached for the fuel the entry points pass on inputs the source
terminates on). -/
inductive Err
  | parsing (msg : String)
  | index
  | structError
  | typeError
  | unicodeDecodeError
  | valueError
  | fuel
deriving DecidableEq, Repr

/-- Strict UTF-8 validity of a byte sequence, exactly the acceptance of
Python's `bytes.decode()`: ASCII, and 2- to 4-byte sequences with the
usual continuation ranges, rejecting overlong encodings (`0xC0/0xC1`,
short `0xE0`/`0xF0` ranges), surrogates (`0xED 0xA0-0xBF`), and code
points above `U+10FFFF` (`0xF4 0x90-`, `0xF5-0xFF`). -/
def isValidUtf8 : List Nat → Bool
  | [] => true
  | b :: rest =>
    if b < 128 then isValidUtf8 rest
    else if 194 ≤ b ∧ b ≤ 223 then
      match rest with
      | c1 :: rest1 =>
        if 128 ≤ c1 ∧ c1 ≤ 191 then isValidUtf8 rest1 else false
      | [] => false
    else if b = 224 then
      match rest with
      | c1 :: c2 :: rest1 =>
        if (160 ≤ c1 ∧ c1 ≤ 191) ∧ (128 ≤ c2 ∧ c2 ≤ 191) then
          isValidUtf8 rest1
        else false
      | _ => false
    else if (225 ≤ b ∧ b ≤ 236) ∨ b = 238 ∨ b = 239 then
      match rest with
      | c1 :: c2 :: rest1 =>
        if (128 ≤ c1 ∧ c1 ≤ 191) ∧ (128 ≤ c2 ∧ c2 ≤ 191) then
          isValidUtf8 rest1
        else false
      | _ => false
    else if b = 237 then
      match rest with
      | c1 :: c2 :: rest1 =>
        if (128 ≤ c1 ∧ c1 ≤ 159) ∧ (128 ≤ c2 ∧ c2 ≤ 191) then
          isValidUtf8 rest1
        else false
      | _ => false
    else if b = 240 then
      match rest with
      | c1 :: c2 :: c3 :: rest1 =>
        if (144 ≤ c1 ∧ c1 ≤ 191) ∧ (128 ≤ c2 ∧ c2 ≤ 191) ∧
            (128 ≤ c3 ∧ c3 ≤ 191) then
          isValidUtf8 rest1
        else false
      | _ => false
    else if 241 ≤ b ∧ b ≤ 243 then
      match rest with
      | c1 :: c2 :: c3 :: rest1 =>
        if (128 ≤ c1 ∧ c1 ≤ 191) ∧ (128 ≤ c2 ∧ c2 ≤ 191) ∧
            (128 ≤ c3 ∧ c3 ≤ 191) then
          isValidUtf8 rest1
        else false
      | _ => false
    else if b = 244 then
      match rest with
      | c1 :: c2 :: c3 :: rest1 =>
        if (128 ≤ c1 ∧ c1 ≤ 143) ∧ (128 ≤ c2 ∧ c2 ≤ 191) ∧
            (128 ≤ c3 ∧ c3 ≤ 191) then
          isValidUtf8 rest1
        else false
      | _ => false
    else false

/-- A blank byte: the ASCII whitespace class `\t`, `\n`, `\v`, `\f`,
`\r`, space. -/
def isSpaceByte (b : Nat) : Bool :=
  b = 32 || b = 9 || b = 10 || b = 11 || b = 12 || b = 13

/-- An ASCII decimal digit byte. -/
def isDigitByte (b : Nat) : Bool := 48 ≤ b && b ≤ 57

/-- ASCII lower-casing of one byte (`str.lower` on the letters the date
names use). -/
def lowerByte (b : Nat) : Nat := if 65 ≤ b ∧ b ≤ 90 then b + 32 else b

/-- The abbreviated weekday names, lower-case bytes
(mon tue wed thu fri sat sun). -/
def dayAbbrs : List (List Nat) :=
  [[109, 111, 110], [116, 117, 101], [119, 101, 100], [116, 104, 117],
   [102, 114, 105], [115, 97, 116], [115, 117, 110]]

/-- The abbreviated month names, lower-case bytes (jan .. dec). -/
def monthAbbrs : List (List Nat) :=
  [[106, 97, 110], [102, 101, 98], [109, 97, 114], [97, 112, 114],
   [109, 97, 121], [106, 117, 110], [106, 117, 108], [97, 117, 103],
   [115, 101, 112], [111, 99, 116], [110, 111, 118], [100, 101, 99]]

/-- Case-insensitive match of one of `names` at the head of `s`,
returning the 1-based index of the matched name and the remainder of
`s` (all names here have length 3, so the match is unambiguous). -/
def stripNameFrom (names : List (List Nat)) (k : Nat) (s : List Nat) :
    Option (Nat × List Nat) :=
  match names with
  | [] => none
  | n :: rest =>
    if (s.take n.length).map lowerByte = n then some (k, s.drop n.length)
    else stripNameFrom rest (k + 1) s

def stripName (names : List (List Nat)) (s : List Nat) :
    Option (Nat × List Nat) :=
  stripNameFrom names 1 s

/-- One or more blank bytes (the `\s+` that format whitespace becomes). -/
def stripSpaces1 : List Nat → Option (List Nat)
  | b :: rest =>
    if isSpaceByte b then some (rest.dropWhile isSpaceByte) else none
  | [] => none

/-- A one- or two-digit number whose value lies in `lo..hi`, greedy over
the available digits (each numeric field of the date pattern is
followed by a non-digit, so greedy matching agrees with the pattern's
bounded alternations). -/
def stripNum2 (lo hi : Nat) (s : List Nat) : Option (Nat × List Nat) :=
  match s with
  | d1 :: rest =>
    if isDigitByte d1 then
      match rest with
      | d2 :: rest2 =>
        if isDigitByte d2 then
          let v := (d1 - 48) * 10 + (d2 - 48)
          if lo ≤ v ∧ v ≤ hi then some (v, rest2) else none
        else
          let v := d1 - 48
          if lo ≤ v ∧ v ≤ hi then some (v, rest) else none
      | [] =>
        let v := d1 - 48
        if lo ≤ v ∧ v ≤ hi then some (v, []) else none
    else none
  | [] => none

/-- One exact byte. -/
def stripByte (b : Nat) : List Nat → Option (List Nat)
  | c :: rest => if c = b then some rest else none
  | [] => none

/-- Exactly four digits, as a year number. -/
def stripYear4 (s : List Nat) : Option (Nat × List Nat) :=
  match s with
  | a :: b :: c :: d :: rest =>
    if isDigitByte a ∧ isDigitByte b ∧ isDigitByte c ∧ isDigitByte d then
      some ((a - 48) * 1000 + (b - 48) * 100 + (c - 48) * 10 + (d - 48),
        rest)
    else none
  | _ => none

def isLeapYear (y : Nat) : Bool :=
  (y % 4 = 0 && y % 100 ≠ 0) || y % 400 = 0

def daysInMonth (y m : Nat) : Nat :=
  if m = 2 then (if isLeapYear y then 29 else 28)
  else if m = 4 || m = 6 || m = 9 || m = 11 then 30
  else 31

/-- Modelled from the spec: the fixed date/time text pattern
(`DATE_FMT` of `ezdxf._acis.const`, a module not under `src/`) that the
source's `datetime.strptime(date, DATE_FMT)` call checks the creation
date against.  The spec fixes only that it is "a fixed date/time text
pattern"; modelled as the ctime-style pattern ACIS headers carry,
`%a %b %d %H:%M:%S %Y`: abbreviated weekday and month name
(case-insensitive), format whitespace matching one or more blank bytes,
day 1-31 and valid for the month and (leap) year, hour 0-23, minute and
second 0-59, an exactly-four-digit year at least 1, and the whole
string consumed. -/
def matchesDateFmt (s : List Nat) : Bool :=
  (do
    let (_, s) ← stripName dayAbbrs s
    let s ← stripSpaces1 s
    let (month, s) ← stripName monthAbbrs s
    let s ← stripSpaces1 s
    let (day, s) ← stripNum2 1 31 s
    let s ← stripSpaces1 s
    let (_, s) ← stripNum2 0 23 s
    let s ← stripByte 58 s
    let (_, s) ← stripNum2 0 59 s
    let s ← stripByte 58 s
    let (_, s) ← stripNum2 0 59 s
    let s ← stripSpaces1 s
    let (year, s) ← stripYear4 s
    if s.isEmpty ∧ 1 ≤ year ∧ day ≤ daysInMonth year month then
      some ()
    else none : Option Unit).isSome

/-- Modelled from the spec: `datetime.strptime(date, DATE_FMT)`
(`sab.py` line 68; `DATE_FMT` lives in the absent `const.py`): raises
`ValueError` unless the string matches the fixed date pattern.  The
parsed datetime value is represented by the conforming string itself:
equal strings parse to equal datetimes, so the spec's byte-for-byte
round trip on the date string refines the recovery of the parsed
value. -/
def strptime (s : List Nat) : Except Err (List Nat) :=
  if matchesDateFmt s then .ok s else .error .valueError

/-- `data[i]` on a Python sequence: negative indices count from the end,
out-of-range raises `IndexError`. -/
def pyAt (data : List Nat) (i : Int) : Except Err Nat :=
  let j : Int := if i < 0 then i + data.length else i
  if 0 ≤ j then
    match data.get? j.toNat with
    | some b => .ok b
    | none => .error .index
  else .error .index

/-- `data[a:b]` on a Python sequence: clamped, total, never raises. -/
def pySlice (data : List Nat) (a b : Int) : List Nat :=
  let n : Int := data.length
  let s : Int := if a < 0 then max 0 (a + n) else min a n
  let e : Int := if b < 0 then max 0 (b + n) else min b n
  (data.take e.toNat).drop s.toNat

/-- `struct.unpack_from` offset normalization: a negative offset counts
from the end; the call raises `struct.error` when fewer than `size`
bytes remain at the normalized offset. -/
def unpackOffset (n size : Nat) (pos : Int) : Except Err Nat :=
  let p : Int := if pos < 0 then pos + n else pos
  if 0 ≤ p ∧ p + size ≤ n then .ok p.toNat else .error .structError

/-- Little-endian byte-list to natural number. -/
def leNat : List Nat → Nat
  | [] => 0
  | b :: rest => b + 256 * leNat rest

/-- Little-endian byte list of width `k` of a natural number. -/
def natToLe : Nat → Nat → List Nat
  | 0, _ => []
  | k + 1, u => u % 256 :: natToLe k (u / 256)

/-- Reinterpret an unsigned 32-bit value as `struct`'s signed `<i`. -/
def sint32 (u : Nat) : Int :=
  if u < 2147483648 then (u : Int) else (u : Int) - 4294967296

/-- The byte cursor (`Decoder` in the source): buffer plus read offset.
The offset is a Python `int`, hence `Int` (the source never bounds it;
a negative length handed to `read_str` would move it backwards). -/
structure Decoder where
  data : List Nat
  index : Int
deriving DecidableEq, Repr

namespace Decoder

/-- `self.index < len(self.data)`. -/
def has_data (d : Decoder) : Bool := d.index < (d.data.length : Int)

/-- `forward`: returns the pre-advance offset and advances by `count`.
The source performs no bounds check here; it cannot fail. -/
def forward (d : Decoder) (count : Int) : Int × Decoder :=
  (d.index, { d with index := d.index + count })

/-- `read_byte`: `self.data[pos]` after `forward(1)`. -/
def read_byte (d : Decoder) : Except Err (Nat × Decoder) :=
  let (pos, d1) := d.forward 1
  (pyAt d.data pos).map fun b => (b, d1)

/-- `read_bytes`: `self.data[pos : pos + count]` after `forward(count)`.
A Python slice is clamped, so this silently returns fewer bytes than
requested when the request overruns the buffer. -/
def read_bytes (d : Decoder) (count : Int) : List Nat × Decoder :=
  let (pos, d1) := d.forward count
  (pySlice d.data pos (pos + count), d1)

/-- `read_int`: `struct.unpack_from("<i", ...)` after `forward(4)`;
raises `struct.error` when fewer than 4 bytes remain. -/
def read_int (d : Decoder) : Except Err (Int × Decoder) :=
  let (pos, d1) := d.forward 4
  (unpackOffset d.data.length 4 pos).map fun p =>
    (sint32 (leNat ((d.data.drop p).take 4)), d1)

/-- `read_float`: `struct.unpack_from("<d", ...)` after `forward(8)`;
the value is kept as its 64-bit pattern. -/
def read_float (d : Decoder) : Except Err (Nat × Decoder) :=
  let (pos, d1) := d.forward 8
  (unpackOffset d.data.length 8 pos).map fun p =>
    (leNat ((d.data.drop p).take 8), d1)

/-- `read_floats(3)` (the source's `read_floats` is only ever called with
`count = 3`): `struct.unpack_from("<3d", ...)` after `forward(24)`. -/
def read_floats3 (d : Decoder) : Except Err ((Nat × Nat × Nat) × Decoder) :=
  let (pos, d1) := d.forward 24
  (unpackOffset d.data.length 24 pos).map fun p =>
    let bs := d.data.drop p
    ((leNat (bs.take 8), leNat ((bs.drop 8).take 8),
      leNat ((bs.drop 16).take 8)), d1)

/-- `read_str`: `read_bytes(length).decode()`; the decoded text is kept
as its bytes (see the module comment), and `decode()` raises
`UnicodeDecodeError` on a byte sequence that is not valid UTF-8. -/
def read_str (d : Decoder) (length : Int) :
    Except Err (List Nat × Decoder) :=
  let (text, d1) := d.read_bytes length
  if isValidUtf8 text then .ok (text, d1) else .error .unicodeDecodeError

/-- `read_str_tag`: a one-byte tag that must equal `Tags.STR`, then a
length byte, then that many bytes of text. -/
def read_str_tag (d : Decoder) : Except Err (List Nat × Decoder) := do
  let (tag, d1) ← d.read_byte
  if tag = Tags.STR then
    let (n, d2) ← d1.read_byte
    d2.read_str n
  else
    .error (.parsing "string tag (7) not found")

/-- `read_double_tag`: a one-byte tag that must equal `Tags.DOUBLE`, then
an 8-byte double. -/
def read_double_tag (d : Decoder) : Except Err (Nat × Decoder) := do
  let (tag, d1) ← d.read_byte
  if tag = Tags.DOUBLE then
    d1.read_float
  else
    .error (.parsing "double tag (6) not found")

end Decoder

/-- Modelled from the spec: the `AcisHeader` container of
`ezdxf._acis.hdr` (the module is not under `src/`); the spec lists its
fields (version, record count, entity count, flags, product-id string,
ACIS-version string, creation date, units-in-mm).  The creation date is
kept as the decoded date string: the source parses it with
`datetime.strptime` against the fixed `DATE_FMT` pattern, a
re-presentation of strings in that format, and the spec's round-trip
property for it is byte-for-byte on the string. -/
structure AcisHeader where
  version : Int
  n_records : Int
  n_entities : Int
  flags : Int
  product_id : List Nat
  acis_version : List Nat
  creation_date : List Nat
  units_in_mm : Nat
deriving DecidableEq, Repr

namespace Decoder

/-- `read_header`: signature dispatch (ACIS first, then ASM), then the
fixed field sequence; the two trailing tolerance doubles are read and
discarded. -/
def read_header (d : Decoder) : Except Err (AcisHeader × Decoder) := do
  let d0 ←
    if acisSignature.isPrefixOf d.data then
      pure { d with index := (acisSignature.length : Int) }
    else if asmSignature.isPrefixOf d.data then
      pure { d with index := (asmSignature.length : Int) }
    else
      Except.error (Err.parsing "not a SAB file")
  let (version, d1) ← d0.read_int
  let (n_records, d2) ← d1.read_int
  let (n_entities, d3) ← d2.read_int
  let (flags, d4) ← d3.read_int
  let (product_id, d5) ← d4.read_str_tag
  let (acis_version, d6) ← d5.read_str_tag
  let (date, d7) ← d6.read_str_tag
  let creation_date ← strptime date
  let (units_in_mm, d8) ← d7.read_double_tag
  let (_res_tol, d9) ← d8.read_double_tag
  let (_nor_tol, d10) ← d9.read_double_tag
  pure ({ version := version, n_records := n_records,
          n_entities := n_entities, flags := flags,
          product_id := product_id, acis_version := acis_version,
          creation_date := creation_date,
          units_in_mm := units_in_mm }, d10)

end Decoder

/-- `token.value in DATA_END_MARKERS`: Python `in` compares with `==`;
only a string value can equal one of the marker strings. -/
def isEndMarker (v : Value) : Bool :=
  v = Value.str endOfAcisData ∨ v = Value.str endOfAsmData

/-- `"-".join(entity_type)`: the composed entity-type name. -/
def joinHyphen : List (List Nat) → List Nat
  | [] => []
  | [s] => s
  | s :: rest => s ++ 45 :: joinHyphen rest

namespace Decoder

/-- The body of `read_record`'s `while True` loop, one constructor case
per tag, carrying the loop's mutable state (`values`, `entity_type`,
`subtype_level`) explicitly.  `fuel` bounds the iteration count; the
wrapper `read_record` passes enough fuel for every terminating run
(each iteration consumes at least the tag byte).  In the unknown-tag
arm the source builds the error message from `values[0]` before
raising, so an empty record raises `IndexError` there instead of
`ParsingError`. -/
def read_record_loop :
    Nat → SabRecord → List (List Nat) → Int → Decoder →
    Except Err (SabRecord × Decoder)
  | 0, _, _, _, _ => .error .fuel
  | fuel + 1, values, entity_type, subtype_level, d =>
    if d.has_data = false then
      match values with
      | token :: _ =>
        if isEndMarker token.value then .ok (values, d)
        else .error (.parsing "pre-mature end of data")
      | [] => .error (.parsing "pre-mature end of data")
    else do
      let (tag, d) ← d.read_byte
      if tag = Tags.INT then
        let (n, d) ← d.read_int
        read_record_loop fuel (values ++ [⟨tag, .int n⟩]) entity_type
          subtype_level d
      else if tag = Tags.DOUBLE then
        let (u, d) ← d.read_float
        read_record_loop fuel (values ++ [⟨tag, .double u⟩]) entity_type
          subtype_level d
      else if tag = Tags.STR then
        let (n, d) ← d.read_byte
        let (s, d) ← d.read_str n
        read_record_loop fuel (values ++ [⟨tag, .str s⟩]) entity_type
          subtype_level d
      else if tag = Tags.POINTER then
        let (n, d) ← d.read_int
        read_record_loop fuel (values ++ [⟨tag, .int n⟩]) entity_type
          subtype_level d
      else if tag = Tags.BOOL_TRUE then
        read_record_loop fuel (values ++ [⟨tag, .bool true⟩]) entity_type
          subtype_level d
      else if tag = Tags.BOOL_FALSE then
        read_record_loop fuel (values ++ [⟨tag, .bool false⟩]) entity_type
          subtype_level d
      else if tag = Tags.LITERAL_STR then
        let (n, d) ← d.read_int
        let (s, d) ← d.read_str n
        read_record_loop fuel (values ++ [⟨tag, .str s⟩]) entity_type
          subtype_level d
      else if tag = Tags.ENTITY_TYPE_EX then
        let (n, d) ← d.read_byte
        let (s, d) ← d.read_str n
        read_record_loop fuel values (entity_type ++ [s]) subtype_level d
      else if tag = Tags.ENTITY_TYPE then
        let (n, d) ← d.read_byte
        let (s, d) ← d.read_str n
        read_record_loop fuel
          (values ++ [⟨tag, .str (joinHyphen (entity_type ++ [s]))⟩]) []
          subtype_level d
      else if tag = Tags.LOCATION_VEC then
        let (v, d) ← d.read_floats3
        read_record_loop fuel (values ++ [⟨tag, .vec3 v.1 v.2.1 v.2.2⟩])
          entity_type subtype_level d
      else if tag = Tags.DIRECTION_VEC then
        let (v, d) ← d.read_floats3
        read_record_loop fuel (values ++ [⟨tag, .vec3 v.1 v.2.1 v.2.2⟩])
          entity_type subtype_level d
      else if tag = Tags.ENUM then
        let (n, d) ← d.read_int
        read_record_loop fuel (values ++ [⟨tag, .int n⟩]) entity_type
          subtype_level d
      else if tag = Tags.UNKNOWN_0x17 then
        let (u, d) ← d.read_float
        read_record_loop fuel (values ++ [⟨tag, .double u⟩]) entity_type
          subtype_level d
      else if tag = Tags.SUBTYPE_START then
        read_record_loop fuel (values ++ [⟨tag, .int (subtype_level + 1)⟩])
          entity_type (subtype_level + 1) d
      else if tag = Tags.SUBTYPE_END then
        read_record_loop fuel (values ++ [⟨tag, .int subtype_level⟩])
          entity_type (subtype_level - 1) d
      else if tag = Tags.RECORD_END then
        .ok (values, d)
      else
        match values with
        | [] => .error .index
        | _ :: _ => .error (.parsing "unknown SAB tag")

/-- `read_record`: the loop started on empty state.  `data.length + 1`
iterations suffice for every run the source completes (the cursor
advances at least one byte per iteration). -/
def read_record (d : Decoder) : Except Err (SabRecord × Decoder) :=
  read_record_loop (d.data.length + 1) [] [] 0 d

/-- The loop of the `read_records` generator, materialized: while data
remains, read one record; a clean end of data ends the stream, and an
`IndexError` raised while decoding a record is caught and ends the
stream; every other exception propagates. -/
def read_records_loop : Nat → Decoder → Except Err (List SabRecord)
  | 0, _ => .error .fuel
  | fuel + 1, d =>
    if d.has_data then
      match d.read_record with
      | .ok (record, d1) =>
        (read_records_loop fuel d1).map fun rest => record :: rest
      | .error .index => .ok []
      | .error e => .error e
    else
      .ok []

/-- `read_records` consumed to a list.  `data.length + 1` records
suffice: each record consumes at least one byte. -/
def read_records (d : Decoder) : Except Err (List SabRecord) :=
  read_records_loop (d.data.length + 1) d

end Decoder

/-- `SabEntity`: low level representation of an ACIS entity.  The Python
attribute slots are typed `Any` in effect (they receive token values),
hence `Value` for `name`, `attr_ptr` and `id`; `attributes` starts as
`None` and receives an entity reference during resolution. -/
structure SabEntity where
  name : Value
  attr_ptr : Value := .int (-1)
  id : Value := .int (-1)
  data : List Token := []
  attributes : Option EntityRef := none
deriving DecidableEq, Repr

instance : Inhabited SabEntity := ⟨{ name := .str [] }⟩

/-- `NULL_PTR`: the single module-level null-entity sentinel object; the
reference `EntityRef.nullPtr` denotes it. -/
def NULL_PTR : SabEntity :=
  { name := .str [110, 117, 108, 108, 45, 112, 116, 114],
    attr_ptr := .int (-1), id := .int (-1), data := [] }

/-- The `SabDataLoader` cursor over one entity's token list.  The index
is a Python `int` that the source only ever increments from 0. -/
structure SabDataLoader where
  version : Int
  data : List Token
  index : Nat
deriving DecidableEq, Repr

namespace SabDataLoader

/-- `has_data`: `self.index <= len(self.data)` — note `<=`, not `<`. -/
def has_data (l : SabDataLoader) : Bool := l.index ≤ l.data.length

/-- `read_int`: `self.data[self.index]` (an `IndexError` past the end),
then a tag check that raises a `ParsingError` on mismatch. -/
def read_int (l : SabDataLoader) : Except Err (Value × SabDataLoader) :=
  match l.data.get? l.index with
  | none => .error .index
  | some token =>
    if token.tag = Tags.INT then
      .ok (token.value, { l with index := l.index + 1 })
    else
      .error (.parsing "expected int token")

end SabDataLoader

/-- `build_entities`: one entity per record; a record whose first token
is a reserved end marker yields the terminal sentinel entity and stops.
Missing tokens (`record[0]`, `record[1]`, `record[2]`) raise
`IndexError`; the payload slices (`record[3:]`, `record[2:]`) never do. -/
def build_entities (records : List SabRecord) (version : Int) :
    Except Err (List SabEntity) :=
  match records with
  | [] => .ok []
  | record :: rest =>
    match record with
    | [] => .error .index
    | t0 :: tl =>
      if isEndMarker t0.value then
        .ok [{ name := t0.value }]
      else
        match tl with
        | [] => .error .index
        | t1 :: tl1 =>
          if version ≥ 700 then
            match tl1 with
            | [] => .error .index
            | t2 :: payload =>
              (build_entities rest version).map fun es =>
                { name := t0.value, attr_ptr := t1.value, id := t2.value,
                  data := payload } :: es
          else
            (build_entities rest version).map fun es =>
              { name := t0.value, attr_ptr := t1.value, id := .int (-1),
                data := tl1 } :: es

/-- The `ptr` closure of `resolve_pointers`: `-1` yields the shared
`NULL_PTR` sentinel, anything else is used as a Python list subscript of
the entity list (`len` is its length).  Python subscripting accepts any
`int` — negative values index from the end — and raises `IndexError`
out of range and `TypeError` for non-integers; a `bool` is an `int`
(`True` is `1`), and a `float` equal to `-1` passes the `num == -1`
test (`-1.0 == -1` in Python) while any other `float` subscript raises
`TypeError`. -/
def ptr (len : Nat) (v : Value) : Except Err EntityRef :=
  match v with
  | .int n =>
    if n = -1 then .ok .nullPtr
    else
      let j : Int := if n < 0 then n + len else n
      if 0 ≤ j ∧ j < (len : Int) then .ok (.idx j.toNat) else .error .index
  | .bool b =>
    let n : Int := if b then 1 else 0
    if n < (len : Int) then .ok (.idx n.toNat) else .error .index
  | .double bits =>
    if bits = 0xBFF0000000000000 then .ok .nullPtr else .error .typeError
  | _ => .error .typeError

/-- The payload pass of `resolve_pointers` over one entity's tokens:
every `POINTER`-tagged token has its value replaced by the resolved
entity reference; other tokens are untouched. -/
def resolve_data (len : Nat) : List Token → Except Err (List Token)
  | [] => .ok []
  | t :: rest =>
    if t.tag = Tags.POINTER then
      match ptr len t.value with
      | .error e => .error e
      | .ok r =>
        (resolve_data len rest).map fun rest1 => ⟨t.tag, .entity r⟩ :: rest1
    else
      (resolve_data len rest).map fun rest1 => t :: rest1

/-- One iteration of `resolve_pointers`' entity loop: resolve the
attribute pointer into `attributes`, reset `attr_ptr` to `-1`, then
rewrite the payload pointers. -/
def resolve_entity (len : Nat) (e : SabEntity) : Except Err SabEntity :=
  match ptr len e.attr_ptr with
  | .error err => .error err
  | .ok a =>
    (resolve_data len e.data).map fun data1 =>
      { e with attributes := some a, attr_ptr := .int (-1), data := data1 }

/-- The entity loop of `resolve_pointers`. -/
def resolve_list (len : Nat) : List SabEntity → Except Err (List SabEntity)
  | [] => .ok []
  | e :: rest =>
    match resolve_entity len e with
    | .error err => .error err
    | .ok e1 =>
      (resolve_list len rest).map fun rest1 => e1 :: rest1

/-- `resolve_pointers`: in-place pointer resolution over the full entity
list, modelled as returning the updated list (the source returns the
same, mutated list). -/
def resolve_pointers (entities : List SabEntity) :
    Except Err (List SabEntity) :=
  resolve_list entities.length entities

instance : Inhabited Token := ⟨⟨0, .int 0⟩⟩

/-! ## Header encoding (for the round-trip statement) -/

/-- The little-endian two's-complement 4-byte encoding of an `int32`. -/
def i32 (v : Int) : List Nat := natToLe 4 (v % 4294967296).toNat

/-- The wire form of a tagged short string: the `STR` tag byte, one
length byte, then the text bytes. -/
def strTagBytes (s : List Nat) : List Nat := Tags.STR :: s.length :: s

/-- The wire form of a tagged double: the `DOUBLE` tag byte then the
8-byte little-endian bit pattern. -/
def dblTagBytes (u : Nat) : List Nat := Tags.DOUBLE :: natToLe 8 u

/-- A well-formed SAB header image: signature, four `int32` fields,
three tagged short strings, three tagged doubles. -/
def encodeHeader (sig : List Nat) (ver nrec nent flags : Int)
    (pid aver date : List Nat) (units res_tol nor_tol : Nat) : List Nat :=
  sig ++ i32 ver ++ i32 nrec ++ i32 nent ++ i32 flags ++
    strTagBytes pid ++ strTagBytes aver ++ strTagBytes date ++
    dblTagBytes units ++ dblTagBytes res_tol ++ dblTagBytes nor_tol

theorem length_natToLe (k u : Nat) : (natToLe k u).length = k := by
  induction k generalizing u with
  | zero => rfl
  | succ n ih => simp [natToLe, ih]

theorem leNat_natToLe (k u : Nat) : leNat (natToLe k u) = u % 256 ^ k := by
  induction k generalizing u with
  | zero => simp [natToLe, leNat, Nat.mod_one]
  | succ n ih =>
    simp only [natToLe, leNat, ih, pow_succ]
    rw [mul_comm (256 ^ n) 256, Nat.mod_mul]

theorem length_i32 (v : Int) : (i32 v).length = 4 := length_natToLe 4 _

theorem sint32_leNat_i32 {v : Int} (h1 : -2147483648 ≤ v)
    (h2 : v < 2147483648) : sint32 (leNat (i32 v)) = v := by
  rw [i32, leNat_natToLe, sint32]
  have hmod : v % 4294967296 = v ∨ v % 4294967296 = v + 4294967296 := by
    omega
  rcases hmod with hm | hm <;> rw [hm] <;> split_ifs <;> omega

theorem leNat_natToLe_full {k u : Nat} (h : u < 256 ^ k) :
    leNat (natToLe k u) = u := by
  rw [leNat_natToLe, Nat.mod_eq_of_lt h]

theorem bind_ok_eq {ε α β : Type} (x : α) (f : α → Except ε β) :
    (Except.ok x : Except ε α) >>= f = f x := rfl

theorem bind_error_eq {ε α β : Type} (e : ε) (f : α → Except ε β) :
    (Except.error e : Except ε α) >>= f = Except.error e := rfl

theorem pySlice_exact (pre s post : List Nat) :
    pySlice (pre ++ s ++ post) (pre.length : Int)
      ((pre.length : Int) + (s.length : Int)) = s := by
  simp only [pySlice]
  have h1 : ¬ ((pre.length : Int) < 0) := by omega
  have h2 : ¬ ((pre.length : Int) + (s.length : Int) < 0) := by omega
  rw [if_neg h1, if_neg h2]
  have hlen : (pre ++ s ++ post).length =
      pre.length + s.length + post.length := by simp; omega
  have hmin1 : min ((pre.length : Int)) ((pre ++ s ++ post).length : Int) =
      ((pre.length : Nat) : Int) := by
    rw [hlen]; push_cast; omega
  have hmin2 : min ((pre.length : Int) + (s.length : Int))
      ((pre ++ s ++ post).length : Int) =
      ((pre.length + s.length : Nat) : Int) := by
    rw [hlen]; push_cast; omega
  rw [hmin1, hmin2, Int.toNat_natCast, Int.toNat_natCast]
  rw [List.append_assoc, List.take_append_eq_append_take,
    List.take_of_length_le (by omega), List.drop_append_eq_append_drop,
    List.drop_of_length_le (le_refl pre.length)]
  simp only [List.nil_append, Nat.sub_self, List.drop_zero,
    Nat.add_sub_cancel_left]
  exact List.take_left s post

theorem step_read_byte (data : List Nat) (i : Int) {pre post : List Nat}
    {b : Nat} (hdata : data = pre ++ b :: post)
    (hidx : i = (pre.length : Int)) :
    Decoder.read_byte ⟨data, i⟩ = .ok (b, ⟨data, i + 1⟩) := by
  simp only [Decoder.read_byte, Decoder.forward, pyAt]
  rw [hidx, hdata]
  have h1 : ¬ ((pre.length : Int) < 0) := by omega
  rw [if_neg h1, if_pos (by omega : (0:Int) ≤ (pre.length : Int))]
  rw [Int.toNat_natCast]
  rw [List.get?_append_right (le_refl pre.length)]
  simp [Except.map]

theorem step_read_int (data : List Nat) (i : Int) (pre : List Nat)
    {post : List Nat} {v : Int}
    (h1 : -2147483648 ≤ v) (h2 : v < 2147483648)
    (hdata : data = pre ++ i32 v ++ post)
    (hidx : i = (pre.length : Int)) :
    Decoder.read_int ⟨data, i⟩ = .ok (v, ⟨data, i + 4⟩) := by
  simp only [Decoder.read_int, Decoder.forward, unpackOffset]
  rw [hidx, hdata]
  have hlen : (pre ++ i32 v ++ post).length =
      pre.length + 4 + post.length := by simp [length_i32]; omega
  have hno : ¬ ((pre.length : Int) < 0) := by omega
  rw [if_neg hno]
  split_ifs with hc
  case neg =>
    exfalso
    apply hc
    refine ⟨by omega, ?_⟩
    rw [hlen]
    push_cast
    omega
  simp only [Except.map, Int.toNat_natCast]
  rw [List.append_assoc, List.drop_append_eq_append_drop,
    List.drop_of_length_le (le_refl pre.length)]
  simp only [Nat.sub_self, List.drop_zero, List.drop_nil, List.nil_append]
  rw [List.take_append_eq_append_take, List.take_of_length_le
    (by rw [length_i32]), Nat.sub_eq_zero_of_le (by rw [length_i32]),
    List.take_zero, List.append_nil]
  rw [sint32_leNat_i32 h1 h2]

theorem step_read_str (data : List Nat) (i : Int) {pre s post : List Nat}
    (hs : isValidUtf8 s = true)
    (hdata : data = pre ++ s ++ post)
    (hidx : i = (pre.length : Int)) :
    Decoder.read_str ⟨data, i⟩ (s.length : Int) =
      .ok (s, ⟨data, i + (s.length : Int)⟩) := by
  simp only [Decoder.read_str, Decoder.read_bytes, Decoder.forward]
  rw [hidx, hdata, pySlice_exact]
  simp [hs]

theorem step_read_str_tag (data : List Nat) (i : Int)
    (pre s : List Nat) {post : List Nat} (hs : isValidUtf8 s = true)
    (hdata : data = pre ++ strTagBytes s ++ post)
    (hidx : i = (pre.length : Int)) :
    Decoder.read_str_tag ⟨data, i⟩ =
      .ok (s, ⟨data, i + (2 + (s.length : Int))⟩) := by
  have hb1 : data = pre ++ Tags.STR :: (s.length :: (s ++ post)) := by
    rw [hdata, strTagBytes]; simp
  have h1 := step_read_byte data i hb1 hidx
  have hb2 : data = (pre ++ [Tags.STR]) ++ s.length :: (s ++ post) := by
    rw [hdata, strTagBytes]; simp
  have hi2 : i + 1 = (((pre ++ [Tags.STR]).length : Nat) : Int) := by
    rw [hidx]; push_cast; simp
  have h2 := step_read_byte data (i + 1) hb2 hi2
  have hb3 : data = (pre ++ [Tags.STR, s.length]) ++ s ++ post := by
    rw [hdata, strTagBytes]; simp
  have hi3 : i + 1 + 1 =
      (((pre ++ [Tags.STR, s.length]).length : Nat) : Int) := by
    rw [hidx]; push_cast; simp [List.length_append]; ring
  have h3 := step_read_str data (i + 1 + 1) hs hb3 hi3
  simp only [Decoder.read_str_tag, h1, bind_ok_eq]
  simp only [if_true]
  simp only [h2, bind_ok_eq, h3]
  have harith : i + 1 + 1 + (s.length : Int) =
      i + (2 + (s.length : Int)) := by ring
  rw [harith]

theorem step_read_float (data : List Nat) (i : Int) {pre post : List Nat}
    {u : Nat} (hu : u < 18446744073709551616)
    (hdata : data = pre ++ natToLe 8 u ++ post)
    (hidx : i = (pre.length : Int)) :
    Decoder.read_float ⟨data, i⟩ = .ok (u, ⟨data, i + 8⟩) := by
  simp only [Decoder.read_float, Decoder.forward, unpackOffset]
  rw [hidx, hdata]
  have hlen : (pre ++ natToLe 8 u ++ post).length =
      pre.length + 8 + post.length := by simp [length_natToLe]; omega
  have hno : ¬ ((pre.length : Int) < 0) := by omega
  rw [if_neg hno]
  split_ifs with hc
  case neg =>
    exfalso
    apply hc
    refine ⟨by omega, ?_⟩
    rw [hlen]
    push_cast
    omega
  simp only [Except.map, Int.toNat_natCast]
  rw [List.append_assoc, List.drop_append_eq_append_drop,
    List.drop_of_length_le (le_refl pre.length)]
  simp only [Nat.sub_self, List.drop_zero, List.drop_nil, List.nil_append]
  rw [List.take_append_eq_append_take, List.take_of_length_le
    (by rw [length_natToLe]), Nat.sub_eq_zero_of_le
    (by rw [length_natToLe]), List.take_zero, List.append_nil]
  rw [leNat_natToLe_full (by norm_num; omega)]

theorem step_read_double_tag (data : List Nat) (i : Int)
    (pre : List Nat) {post : List Nat} {u : Nat}
    (hu : u < 18446744073709551616)
    (hdata : data = pre ++ dblTagBytes u ++ post)
    (hidx : i = (pre.length : Int)) :
    Decoder.read_double_tag ⟨data, i⟩ = .ok (u, ⟨data, i + 9⟩) := by
  have hb1 : data = pre ++ Tags.DOUBLE :: (natToLe 8 u ++ post) := by
    rw [hdata, dblTagBytes]; simp
  have h1 := step_read_byte data i hb1 hidx
  have hb2 : data = (pre ++ [Tags.DOUBLE]) ++ natToLe 8 u ++ post := by
    rw [hdata, dblTagBytes]; simp
  have hi2 : i + 1 = (((pre ++ [Tags.DOUBLE]).length : Nat) : Int) := by
    rw [hidx]; push_cast; simp
  have h2 := step_read_float data (i + 1) hu hb2 hi2
  simp only [Decoder.read_double_tag, h1, bind_ok_eq]
  simp only [if_true]
  simp only [h2]
  have harith : i + 1 + 8 = i + 9 := by ring
  rw [harith]

theorem isPrefixOf_append_self (a rest : List Nat) :
    a.isPrefixOf (a ++ rest) = true := by
  induction a with
  | nil => simp [List.isPrefixOf]
  | cons x xs ih => simp [List.isPrefixOf, ih]

theorem acis_not_prefix_asm (rest : List Nat) :
    acisSignature.isPrefixOf (asmSignature ++ rest) = false := by
  simp [acisSignature, asmSignature, List.isPrefixOf]

/-- Running `read_header` over a well-formed header image followed by
arbitrary bytes recovers every encoded field value and leaves the cursor
at the end of the header (the two tolerance doubles are consumed but not
retained). -/
theorem read_header_round_trip (sig : List Nat)
    (hsig : sig = acisSignature ∨ sig = asmSignature)
    (ver nrec nent flags : Int)
    (hver1 : -2147483648 ≤ ver) (hver2 : ver < 2147483648)
    (hnr1 : -2147483648 ≤ nrec) (hnr2 : nrec < 2147483648)
    (hne1 : -2147483648 ≤ nent) (hne2 : nent < 2147483648)
    (hfl1 : -2147483648 ≤ flags) (hfl2 : flags < 2147483648)
    (pid aver date : List Nat)
    (hpidU : isValidUtf8 pid = true) (haverU : isValidUtf8 aver = true)
    (hdateU : isValidUtf8 date = true)
    (hdateF : matchesDateFmt date = true)
    (units res_tol nor_tol : Nat)
    (hu : units < 18446744073709551616)
    (hr : res_tol < 18446744073709551616)
    (hn : nor_tol < 18446744073709551616) (rest : List Nat) :
    ∀ DATA, DATA = encodeHeader sig ver nrec nent flags pid aver date
        units res_tol nor_tol ++ rest →
      Decoder.read_header ⟨DATA, 0⟩ =
        .ok ({ version := ver, n_records := nrec, n_entities := nent,
               flags := flags, product_id := pid, acis_version := aver,
               creation_date := date, units_in_mm := units },
             ⟨DATA, ((DATA.length : Nat) : Int) - (rest.length : Int)⟩) := by
  intro DATA hD0
  have hD : DATA = sig ++ i32 ver ++ i32 nrec ++ i32 nent ++ i32 flags ++
      strTagBytes pid ++ strTagBytes aver ++ strTagBytes date ++
      dblTagBytes units ++ dblTagBytes res_tol ++ dblTagBytes nor_tol ++
      rest := by rw [hD0]; simp [encodeHeader, List.append_assoc]
  rcases hsig with rfl | rfl
  case inl =>
    have hpre1 : acisSignature.isPrefixOf DATA = true := by
      rw [hD]
      simp only [encodeHeader, List.append_assoc]
      exact isPrefixOf_append_self _ _
    have s1 := step_read_int DATA ((acisSignature.length : Int))
      acisSignature hver1 hver2
      (by rw [hD]; try simp only [List.append_assoc]; try rfl) (by omega)
    have s2 := step_read_int DATA ((acisSignature.length : Int) + 4)
      (acisSignature ++ i32 ver) hnr1 hnr2
      (by rw [hD]; try simp only [List.append_assoc]; try rfl)
      (by simp only [List.length_append, length_i32]; omega)
    have s3 := step_read_int DATA ((acisSignature.length : Int) + 4 + 4)
      (acisSignature ++ i32 ver ++ i32 nrec) hne1 hne2
      (by rw [hD]; try simp only [List.append_assoc]; try rfl)
      (by simp only [List.length_append, length_i32]; omega)
    have s4 := step_read_int DATA ((acisSignature.length : Int) + 4 + 4 + 4)
      (acisSignature ++ i32 ver ++ i32 nrec ++ i32 nent) hfl1 hfl2
      (by rw [hD]; try simp only [List.append_assoc]; try rfl)
      (by simp only [List.length_append, length_i32]; omega)
    have s5 := step_read_str_tag DATA ((acisSignature.length : Int) + 4 + 4 + 4 + 4)
      (acisSignature ++ i32 ver ++ i32 nrec ++ i32 nent ++ i32 flags) pid hpidU
      (by rw [hD]; try simp only [List.append_assoc]; try rfl)
      (by simp only [List.length_append, length_i32]; omega)
    have s6 := step_read_str_tag DATA
      ((acisSignature.length : Int) + 4 + 4 + 4 + 4 + (2 + (pid.length : Int)))
      (acisSignature ++ i32 ver ++ i32 nrec ++ i32 nent ++ i32 flags ++
        strTagBytes pid) aver haverU
      (by rw [hD]; try simp only [List.append_assoc]; try rfl)
      (by simp only [List.length_append, length_i32, strTagBytes,
            List.length_cons]
          omega)
    have s7 := step_read_str_tag DATA
      ((acisSignature.length : Int) + 4 + 4 + 4 + 4 + (2 + (pid.length : Int)) +
        (2 + (aver.length : Int)))
      (acisSignature ++ i32 ver ++ i32 nrec ++ i32 nent ++ i32 flags ++
        strTagBytes pid ++ strTagBytes aver) date hdateU
      (by rw [hD]; try simp only [List.append_assoc]; try rfl)
      (by simp only [List.length_append, length_i32, strTagBytes,
            List.length_cons]
          omega)
    have s8 := step_read_double_tag DATA
      ((acisSignature.length : Int) + 4 + 4 + 4 + 4 + (2 + (pid.length : Int)) +
        (2 + (aver.length : Int)) + (2 + (date.length : Int)))
      (acisSignature ++ i32 ver ++ i32 nrec ++ i32 nent ++ i32 flags ++
        strTagBytes pid ++ strTagBytes aver ++ strTagBytes date) hu
      (by rw [hD]; try simp only [List.append_assoc]; try rfl)
      (by simp only [List.length_append, length_i32, strTagBytes,
            List.length_cons]
          omega)
    have s9 := step_read_double_tag DATA
      ((acisSignature.length : Int) + 4 + 4 + 4 + 4 + (2 + (pid.length : Int)) +
        (2 + (aver.length : Int)) + (2 + (date.length : Int)) + 9)
      (acisSignature ++ i32 ver ++ i32 nrec ++ i32 nent ++ i32 flags ++
        strTagBytes pid ++ strTagBytes aver ++ strTagBytes date ++
        dblTagBytes units) hr
      (by rw [hD]; try simp only [List.append_assoc]; try rfl)
      (by simp only [List.length_append, length_i32, strTagBytes,
            dblTagBytes, length_natToLe, List.length_cons]
          try omega)
    have s10 := step_read_double_tag DATA
      ((acisSignature.length : Int) + 4 + 4 + 4 + 4 + (2 + (pid.length : Int)) +
        (2 + (aver.length : Int)) + (2 + (date.length : Int)) + 9 + 9)
      (acisSignature ++ i32 ver ++ i32 nrec ++ i32 nent ++ i32 flags ++
        strTagBytes pid ++ strTagBytes aver ++ strTagBytes date ++
        dblTagBytes units ++ dblTagBytes res_tol) hn
      (by rw [hD]; try simp only [List.append_assoc]; try rfl)
      (by simp only [List.length_append, length_i32, strTagBytes,
            dblTagBytes, length_natToLe, List.length_cons]
          try omega)
    have sd : strptime date = .ok date := by
      simp [strptime, hdateF]
    simp only [Decoder.read_header, hpre1, if_true, if_false,
      Bool.false_eq_true, eq_self_iff_true, pure, Except.pure, bind_ok_eq,
      s1, s2, s3, s4, s5, s6, s7, sd, s8, s9, s10]
    have hlenfin : ((acisSignature.length : Int) + 4 + 4 + 4 + 4 +
        (2 + (pid.length : Int)) + (2 + (aver.length : Int)) +
        (2 + (date.length : Int)) + 9 + 9 + 9) =
        ((DATA.length : Nat) : Int) - (rest.length : Int) := by
      rw [hD]
      simp only [List.length_append, length_i32, strTagBytes,
        dblTagBytes, length_natToLe, List.length_cons]
      omega
    rw [hlenfin]
  case inr =>
    have hpre1 : acisSignature.isPrefixOf DATA = false := by
      rw [hD]
      simp only [encodeHeader, List.append_assoc]
      exact acis_not_prefix_asm _
    have hpre2 : asmSignature.isPrefixOf DATA = true := by
      rw [hD]
      simp only [encodeHeader, List.append_assoc]
      exact isPrefixOf_append_self _ _
    have s1 := step_read_int DATA ((asmSignature.length : Int))
      asmSignature hver1 hver2
      (by rw [hD]; try simp only [List.append_assoc]; try rfl) (by omega)
    have s2 := step_read_int DATA ((asmSignature.length : Int) + 4)
      (asmSignature ++ i32 ver) hnr1 hnr2
      (by rw [hD]; try simp only [List.append_assoc]; try rfl)
      (by simp only [List.length_append, length_i32]; omega)
    have s3 := step_read_int DATA ((asmSignature.length : Int) + 4 + 4)
      (asmSignature ++ i32 ver ++ i32 nrec) hne1 hne2
      (by rw [hD]; try simp only [List.append_assoc]; try rfl)
      (by simp only [List.length_append, length_i32]; omega)
    have s4 := step_read_int DATA ((asmSignature.length : Int) + 4 + 4 + 4)
      (asmSignature ++ i32 ver ++ i32 nrec ++ i32 nent) hfl1 hfl2
      (by rw [hD]; try simp only [List.append_assoc]; try rfl)
      (by simp only [List.length_append, length_i32]; omega)
    have s5 := step_read_str_tag DATA ((asmSignature.length : Int) + 4 + 4 + 4 + 4)
      (asmSignature ++ i32 ver ++ i32 nrec ++ i32 nent ++ i32 flags) pid hpidU
      (by rw [hD]; try simp only [List.append_assoc]; try rfl)
      (by simp only [List.length_append, length_i32]; omega)
    have s6 := step_read_str_tag DATA
      ((asmSignature.length : Int) + 4 + 4 + 4 + 4 + (2 + (pid.length : Int)))
      (asmSignature ++ i32 ver ++ i32 nrec ++ i32 nent ++ i32 flags ++
        strTagBytes pid) aver haverU
      (by rw [hD]; try simp only [List.append_assoc]; try rfl)
      (by simp only [List.length_append, length_i32, strTagBytes,
            List.length_cons]
          omega)
    have s7 := step_read_str_tag DATA
      ((asmSignature.length : Int) + 4 + 4 + 4 + 4 + (2 + (pid.length : Int)) +
        (2 + (aver.length : Int)))
      (asmSignature ++ i32 ver ++ i32 nrec ++ i32 nent ++ i32 flags ++
        strTagBytes pid ++ strTagBytes aver) date hdateU
      (by rw [hD]; try simp only [List.append_assoc]; try rfl)
      (by simp only [List.length_append, length_i32, strTagBytes,
            List.length_cons]
          omega)
    have s8 := step_read_double_tag DATA
      ((asmSignature.length : Int) + 4 + 4 + 4 + 4 + (2 + (pid.length : Int)) +
        (2 + (aver.length : Int)) + (2 + (date.length : Int)))
      (asmSignature ++ i32 ver ++ i32 nrec ++ i32 nent ++ i32 flags ++
        strTagBytes pid ++ strTagBytes aver ++ strTagBytes date) hu
      (by rw [hD]; try simp only [List.append_assoc]; try rfl)
      (by simp only [List.length_append, length_i32, strTagBytes,
            List.length_cons]
          omega)
    have s9 := step_read_double_tag DATA
      ((asmSignature.length : Int) + 4 + 4 + 4 + 4 + (2 + (pid.length : Int)) +
        (2 + (aver.length : Int)) + (2 + (date.length : Int)) + 9)
      (asmSignature ++ i32 ver ++ i32 nrec ++ i32 nent ++ i32 flags ++
        strTagBytes pid ++ strTagBytes aver ++ strTagBytes date ++
        dblTagBytes units) hr
      (by rw [hD]; try simp only [List.append_assoc]; try rfl)
      (by simp only [List.length_append, length_i32, strTagBytes,
            dblTagBytes, length_natToLe, List.length_cons]
          try omega)
    have s10 := step_read_double_tag DATA
      ((asmSignature.length : Int) + 4 + 4 + 4 + 4 + (2 + (pid.length : Int)) +
        (2 + (aver.length : Int)) + (2 + (date.length : Int)) + 9 + 9)
      (asmSignature ++ i32 ver ++ i32 nrec ++ i32 nent ++ i32 flags ++
        strTagBytes pid ++ strTagBytes aver ++ strTagBytes date ++
        dblTagBytes units ++ dblTagBytes res_tol) hn
      (by rw [hD]; try simp only [List.append_assoc]; try rfl)
      (by simp only [List.length_append, length_i32, strTagBytes,
            dblTagBytes, length_natToLe, List.length_cons]
          try omega)
    have sd : strptime date = .ok date := by
      simp [strptime, hdateF]
    simp only [Decoder.read_header, hpre1, hpre2, if_true, if_false,
      Bool.false_eq_true, eq_self_iff_true, pure, Except.pure, bind_ok_eq,
      s1, s2, s3, s4, s5, s6, s7, sd, s8, s9, s10]
    have hlenfin : ((asmSignature.length : Int) + 4 + 4 + 4 + 4 +
        (2 + (pid.length : Int)) + (2 + (aver.length : Int)) +
        (2 + (date.length : Int)) + 9 + 9 + 9) =
        ((DATA.length : Nat) : Int) - (rest.length : Int) := by
      rw [hD]
      simp only [List.length_append, length_i32, strTagBytes,
        dblTagBytes, length_natToLe, List.length_cons]
      omega
    rw [hlenfin]

/-- Running `read_header` over a header image that is well-formed up to
its creation-date string, but whose date string does not match the
fixed date pattern, raises the `ValueError` from `datetime.strptime`
before the units double is read. -/
theorem read_header_bad_date (sig : List Nat)
    (hsig : sig = acisSignature ∨ sig = asmSignature)
    (ver nrec nent flags : Int)
    (hver1 : -2147483648 ≤ ver) (hver2 : ver < 2147483648)
    (hnr1 : -2147483648 ≤ nrec) (hnr2 : nrec < 2147483648)
    (hne1 : -2147483648 ≤ nent) (hne2 : nent < 2147483648)
    (hfl1 : -2147483648 ≤ flags) (hfl2 : flags < 2147483648)
    (pid aver date : List Nat)
    (hpidU : isValidUtf8 pid = true) (haverU : isValidUtf8 aver = true)
    (hdateU : isValidUtf8 date = true)
    (hbadF : matchesDateFmt date = false)
    (units res_tol nor_tol : Nat) (rest : List Nat) :
    ∀ DATA, DATA = encodeHeader sig ver nrec nent flags pid aver date
        units res_tol nor_tol ++ rest →
      Decoder.read_header ⟨DATA, 0⟩ = .error .valueError := by
  intro DATA hD0
  have hD : DATA = sig ++ i32 ver ++ i32 nrec ++ i32 nent ++ i32 flags ++
      strTagBytes pid ++ strTagBytes aver ++ strTagBytes date ++
      dblTagBytes units ++ dblTagBytes res_tol ++ dblTagBytes nor_tol ++
      rest := by rw [hD0]; simp [encodeHeader, List.append_assoc]
  rcases hsig with rfl | rfl
  case inl =>
    have hpre1 : acisSignature.isPrefixOf DATA = true := by
      rw [hD]
      simp only [encodeHeader, List.append_assoc]
      exact isPrefixOf_append_self _ _
    have s1 := step_read_int DATA ((acisSignature.length : Int))
      acisSignature hver1 hver2
      (by rw [hD]; try simp only [List.append_assoc]; try rfl) (by omega)
    have s2 := step_read_int DATA ((acisSignature.length : Int) + 4)
      (acisSignature ++ i32 ver) hnr1 hnr2
      (by rw [hD]; try simp only [List.append_assoc]; try rfl)
      (by simp only [List.length_append, length_i32]; omega)
    have s3 := step_read_int DATA ((acisSignature.length : Int) + 4 + 4)
      (acisSignature ++ i32 ver ++ i32 nrec) hne1 hne2
      (by rw [hD]; try simp only [List.append_assoc]; try rfl)
      (by simp only [List.length_append, length_i32]; omega)
    have s4 := step_read_int DATA ((acisSignature.length : Int) + 4 + 4 + 4)
      (acisSignature ++ i32 ver ++ i32 nrec ++ i32 nent) hfl1 hfl2
      (by rw [hD]; try simp only [List.append_assoc]; try rfl)
      (by simp only [List.length_append, length_i32]; omega)
    have s5 := step_read_str_tag DATA ((acisSignature.length : Int) + 4 + 4 + 4 + 4)
      (acisSignature ++ i32 ver ++ i32 nrec ++ i32 nent ++ i32 flags) pid hpidU
      (by rw [hD]; try simp only [List.append_assoc]; try rfl)
      (by simp only [List.length_append, length_i32]; omega)
    have s6 := step_read_str_tag DATA
      ((acisSignature.length : Int) + 4 + 4 + 4 + 4 + (2 + (pid.length : Int)))
      (acisSignature ++ i32 ver ++ i32 nrec ++ i32 nent ++ i32 flags ++
        strTagBytes pid) aver haverU
      (by rw [hD]; try simp only [List.append_assoc]; try rfl)
      (by simp only [List.length_append, length_i32, strTagBytes,
            List.length_cons]
          omega)
    have s7 := step_read_str_tag DATA
      ((acisSignature.length : Int) + 4 + 4 + 4 + 4 + (2 + (pid.length : Int)) +
        (2 + (aver.length : Int)))
      (acisSignature ++ i32 ver ++ i32 nrec ++ i32 nent ++ i32 flags ++
        strTagBytes pid ++ strTagBytes aver) date hdateU
      (by rw [hD]; try simp only [List.append_assoc]; try rfl)
      (by simp only [List.length_append, length_i32, strTagBytes,
            List.length_cons]
          omega)
    have sd : strptime date = .error .valueError := by
      simp [strptime, hbadF]
    simp only [Decoder.read_header, hpre1, if_true, if_false,
      Bool.false_eq_true, eq_self_iff_true, pure, Except.pure, bind_ok_eq,
      s1, s2, s3, s4, s5, s6, s7, sd, bind_error_eq]
  case inr =>
    have hpre1 : acisSignature.isPrefixOf DATA = false := by
      rw [hD]
      simp only [encodeHeader, List.append_assoc]
      exact acis_not_prefix_asm _
    have hpre2 : asmSignature.isPrefixOf DATA = true := by
      rw [hD]
      simp only [encodeHeader, List.append_assoc]
      exact isPrefixOf_append_self _ _
    have s1 := step_read_int DATA ((asmSignature.length : Int))
      asmSignature hver1 hver2
      (by rw [hD]; try simp only [List.append_assoc]; try rfl) (by omega)
    have s2 := step_read_int DATA ((asmSignature.length : Int) + 4)
      (asmSignature ++ i32 ver) hnr1 hnr2
      (by rw [hD]; try simp only [List.append_assoc]; try rfl)
      (by simp only [List.length_append, length_i32]; omega)
    have s3 := step_read_int DATA ((asmSignature.length : Int) + 4 + 4)
      (asmSignature ++ i32 ver ++ i32 nrec) hne1 hne2
      (by rw [hD]; try simp only [List.append_assoc]; try rfl)
      (by simp only [List.length_append, length_i32]; omega)
    have s4 := step_read_int DATA ((asmSignature.length : Int) + 4 + 4 + 4)
      (asmSignature ++ i32 ver ++ i32 nrec ++ i32 nent) hfl1 hfl2
      (by rw [hD]; try simp only [List.append_assoc]; try rfl)
      (by simp only [List.length_append, length_i32]; omega)
    have s5 := step_read_str_tag DATA ((asmSignature.length : Int) + 4 + 4 + 4 + 4)
      (asmSignature ++ i32 ver ++ i32 nrec ++ i32 nent ++ i32 flags) pid hpidU
      (by rw [hD]; try simp only [List.append_assoc]; try rfl)
      (by simp only [List.length_append, length_i32]; omega)
    have s6 := step_read_str_tag DATA
      ((asmSignature.length : Int) + 4 + 4 + 4 + 4 + (2 + (pid.length : Int)))
      (asmSignature ++ i32 ver ++ i32 nrec ++ i32 nent ++ i32 flags ++
        strTagBytes pid) aver haverU
      (by rw [hD]; try simp only [List.append_assoc]; try rfl)
      (by simp only [List.length_append, length_i32, strTagBytes,
            List.length_cons]
          omega)
    have s7 := step_read_str_tag DATA
      ((asmSignature.length : Int) + 4 + 4 + 4 + 4 + (2 + (pid.length : Int)) +
        (2 + (aver.length : Int)))
      (asmSignature ++ i32 ver ++ i32 nrec ++ i32 nent ++ i32 flags ++
        strTagBytes pid ++ strTagBytes aver) date hdateU
      (by rw [hD]; try simp only [List.append_assoc]; try rfl)
      (by simp only [List.length_append, length_i32, strTagBytes,
            List.length_cons]
          omega)
    have sd : strptime date = .error .valueError := by
      simp [strptime, hbadF]
    simp only [Decoder.read_header, hpre1, hpre2, if_true, if_false,
      Bool.false_eq_true, eq_self_iff_true, pure, Except.pure, bind_ok_eq,
      s1, s2, s3, s4, s5, s6, s7, sd, bind_error_eq]


/-- Whether a token value is a raw integer. -/
def Value.isInt : Value → Bool
  | .int _ => true
  | _ => false

/-! ## Lemmas about the pointer resolver -/

theorem Value.isInt_iff {v : Value} : v.isInt = true ↔ ∃ n, v = .int n := by
  cases v <;> simp [Value.isInt]

theorem ptr_int_neg_one (len : Nat) : ptr len (.int (-1)) = .ok .nullPtr := by
  simp [ptr]

theorem ptr_int_ok_idx {len : Nat} {n : Int} {r : EntityRef}
    (hn : n ≠ -1) (h : ptr len (.int n) = .ok r) :
    ∃ j : Nat, r = .idx j ∧ j < len ∧ (0 ≤ n → (j : Int) = n) ∧
      (n < 0 → (j : Int) = n + len) := by
  by_cases hneg : n < 0
  · simp only [ptr, if_neg hn, if_pos hneg] at h
    split_ifs at h with hc
    cases h
    exact ⟨(n + len).toNat, rfl, by omega, by omega, fun _ => by omega⟩
  · simp only [ptr, if_neg hn, if_neg hneg] at h
    split_ifs at h with hc
    cases h
    exact ⟨n.toNat, rfl, by omega, fun _ => by omega,
      fun hlt => absurd hlt hneg⟩

theorem ptr_int_ok_nullPtr_iff {len : Nat} {n : Int} {r : EntityRef}
    (h : ptr len (.int n) = .ok r) : r = .nullPtr ↔ n = -1 := by
  by_cases hn : n = -1
  · subst hn
    rw [ptr_int_neg_one] at h
    cases h
    simp
  · obtain ⟨j, hj, -⟩ := ptr_int_ok_idx hn h
    simp [hj, hn]

theorem resolve_data_ok_parts {len : Nat} {ts ts1 : List Token}
    (h : resolve_data len ts = .ok ts1) :
    ts1.length = ts.length ∧
    ∀ k, k < ts.length →
      ((ts.getD k default).tag = Tags.POINTER →
        ∃ r, ptr len (ts.getD k default).value = .ok r ∧
          ts1.getD k default = ⟨(ts.getD k default).tag, .entity r⟩) ∧
      ((ts.getD k default).tag ≠ Tags.POINTER →
        ts1.getD k default = ts.getD k default) := by
  induction ts generalizing ts1 with
  | nil =>
    simp only [resolve_data] at h
    cases h
    simp
  | cons t rest ih =>
    simp only [resolve_data] at h
    by_cases ht : t.tag = Tags.POINTER
    · rw [if_pos ht] at h
      cases hp : ptr len t.value with
      | error e => rw [hp] at h; cases h
      | ok r =>
        rw [hp] at h
        cases hr : resolve_data len rest with
        | error e => rw [hr] at h; cases h
        | ok rest1 =>
          rw [hr] at h
          simp only [Except.map] at h
          cases h
          obtain ⟨hlen, hk⟩ := ih hr
          refine ⟨by simp [hlen], ?_⟩
          intro k hklt
          cases k with
          | zero => simp [ht, hp]
          | succ j =>
            simp only [List.getD_cons_succ]
            exact hk j (by simpa using hklt)
    · rw [if_neg ht] at h
      cases hr : resolve_data len rest with
      | error e => rw [hr] at h; cases h
      | ok rest1 =>
        rw [hr] at h
        simp only [Except.map] at h
        cases h
        obtain ⟨hlen, hk⟩ := ih hr
        refine ⟨by simp [hlen], ?_⟩
        intro k hklt
        cases k with
        | zero => simp [ht]
        | succ j =>
          simp only [List.getD_cons_succ]
          exact hk j (by simpa using hklt)

theorem resolve_entity_ok_parts {len : Nat} {e e1 : SabEntity}
    (h : resolve_entity len e = .ok e1) :
    ∃ a data1, ptr len e.attr_ptr = .ok a ∧
      resolve_data len e.data = .ok data1 ∧
      e1 = { e with
        attributes := some a,
        attr_ptr := .int (-1),
        data := data1 } := by
  simp only [resolve_entity] at h
  cases hp : ptr len e.attr_ptr with
  | error err => rw [hp] at h; cases h
  | ok a =>
    rw [hp] at h
    cases hd : resolve_data len e.data with
    | error err => rw [hd] at h; cases h
    | ok data1 =>
      rw [hd] at h
      simp only [Except.map] at h
      cases h
      exact ⟨a, data1, rfl, rfl, rfl⟩

theorem resolve_list_ok_parts {len : Nat} {es res : List SabEntity}
    (h : resolve_list len es = .ok res) :
    res.length = es.length ∧
    ∀ i, i < es.length →
      resolve_entity len (es.getD i default) = .ok (res.getD i default) := by
  induction es generalizing res with
  | nil =>
    simp only [resolve_list] at h
    cases h
    simp
  | cons e rest ih =>
    simp only [resolve_list] at h
    cases he : resolve_entity len e with
    | error err => rw [he] at h; cases h
    | ok e1 =>
      rw [he] at h
      cases hr : resolve_list len rest with
      | error err => rw [hr] at h; cases h
      | ok rest1 =>
        rw [hr] at h
        simp only [Except.map] at h
        cases h
        obtain ⟨hlen, hget⟩ := ih hr
        refine ⟨by simp [hlen], ?_⟩
        intro i hi
        cases i with
        | zero => simpa using he
        | succ j =>
          simp only [List.getD_cons_succ]
          exact hget j (by simpa using hi)

theorem resolve_list_ok_mem {len : Nat} {es res : List SabEntity}
    (h : resolve_list len es = .ok res) :
    ∀ e1 ∈ res, ∃ e ∈ es, resolve_entity len e = .ok e1 := by
  induction es generalizing res with
  | nil =>
    simp only [resolve_list] at h
    cases h
    simp
  | cons e rest ih =>
    simp only [resolve_list] at h
    cases he : resolve_entity len e with
    | error err => rw [he] at h; cases h
    | ok e1 =>
      rw [he] at h
      cases hr : resolve_list len rest with
      | error err => rw [hr] at h; cases h
      | ok rest1 =>
        rw [hr] at h
        simp only [Except.map] at h
        cases h
        intro x hx
        rcases List.mem_cons.mp hx with hx | hx
        · exact ⟨e, List.mem_cons_self e rest, by rw [he, hx]⟩
        · obtain ⟨e0, he0, hres⟩ := ih hr x hx
          exact ⟨e0, List.mem_cons_of_mem e he0, hres⟩

theorem resolve_data_ok_mem_entity {len : Nat} {ts ts1 : List Token}
    (h : resolve_data len ts = .ok ts1) :
    ∀ t1 ∈ ts1, t1.tag = Tags.POINTER → ∃ r, t1.value = .entity r := by
  induction ts generalizing ts1 with
  | nil =>
    simp only [resolve_data] at h
    cases h
    simp
  | cons t rest ih =>
    simp only [resolve_data] at h
    by_cases ht : t.tag = Tags.POINTER
    · rw [if_pos ht] at h
      cases hp : ptr len t.value with
      | error e => rw [hp] at h; cases h
      | ok r =>
        rw [hp] at h
        cases hr : resolve_data len rest with
        | error e => rw [hr] at h; cases h
        | ok rest1 =>
          rw [hr] at h
          simp only [Except.map] at h
          cases h
          intro t1 ht1 htag
          rcases List.mem_cons.mp ht1 with h1 | h1
          · exact ⟨r, by rw [h1]⟩
          · exact ih hr t1 h1 htag
    · rw [if_neg ht] at h
      cases hr : resolve_data len rest with
      | error e => rw [hr] at h; cases h
      | ok rest1 =>
        rw [hr] at h
        simp only [Except.map] at h
        cases h
        intro t1 ht1 htag
        rcases List.mem_cons.mp ht1 with h1 | h1
        · exact absurd htag (by rw [h1]; exact ht)
        · exact ih hr t1 h1 htag

theorem resolve_data_no_ptr {len : Nat} {ts : List Token}
    (h : ∀ t ∈ ts, t.tag ≠ Tags.POINTER) : resolve_data len ts = .ok ts := by
  induction ts with
  | nil => simp [resolve_data]
  | cons t rest ih =>
    have ht := h t (List.mem_cons_self t rest)
    have hrest := ih fun x hx => h x (List.mem_cons_of_mem t hx)
    simp [resolve_data, if_neg ht, hrest, Except.map]

theorem resolve_data_entity_ptr_fails {len : Nat} {ts : List Token}
    (hsome : ∃ t ∈ ts, t.tag = Tags.POINTER)
    (hent : ∀ t ∈ ts, t.tag = Tags.POINTER → ∃ r, t.value = .entity r) :
    resolve_data len ts = .error .typeError := by
  induction ts with
  | nil => simp at hsome
  | cons t rest ih =>
    by_cases ht : t.tag = Tags.POINTER
    · obtain ⟨r, hr⟩ := hent t (List.mem_cons_self t rest) ht
      simp [resolve_data, if_pos ht, hr, ptr]
    · have hsome1 : ∃ t1 ∈ rest, t1.tag = Tags.POINTER := by
        obtain ⟨t1, ht1, htag⟩ := hsome
        rcases List.mem_cons.mp ht1 with h1 | h1
        · exact absurd htag (by rw [h1]; exact ht)
        · exact ⟨t1, h1, htag⟩
      have hrest := ih hsome1
        (fun x hx => hent x (List.mem_cons_of_mem t hx))
      simp [resolve_data, if_neg ht, hrest, Except.map]

/-! ## Theorems -/

/-- C10: `SabDataLoader.has_data` is still `true` when the index equals
the token count, so a caller that checks it and then reads past the
final token gets an out-of-range access (`IndexError`), not a
type-mismatch `ParsingError`; `has_data` is `false` exactly when the
index strictly exceeds the sequence length. -/
theorem sab_C10_loader_has_data_off_by_one :
    (∀ l : SabDataLoader, l.index = l.data.length →
      l.has_data = true ∧ l.read_int = .error .index) ∧
    (∀ l : SabDataLoader, l.has_data = false ↔ l.data.length < l.index) := by
  constructor
  · intro l h
    constructor
    · simp [SabDataLoader.has_data, h]
    · simp [SabDataLoader.read_int, List.get?_eq_none.mpr, h]
  · intro l
    simp [SabDataLoader.has_data]

/-- Witness for C10 at a concrete loader that has consumed its last
token. -/
theorem sab_C10_witness :
    (SabDataLoader.mk 700 [] 0).has_data = true ∧
      (SabDataLoader.mk 700 [] 0).read_int = .error .index :=
  sab_C10_loader_has_data_off_by_one.1 ⟨700, [], 0⟩ rfl

/-- C8, counterexample: a 5-byte `read_bytes` on a 2-byte buffer neither
fails nor returns 5 bytes — it silently returns the 2 available bytes
and leaves the offset advanced past the end, refuting both that the
advance fails when it would exceed the buffer and that no read silently
returns fewer bytes than requested. -/
theorem sab_C8_counterexample :
    (Decoder.mk [97, 98] 0).read_bytes 5 = ([97, 98], ⟨[97, 98], 5⟩) := by
  decide

/-- C8, amended: `forward` returns the pre-advance offset and advances by
`count` unconditionally — the source has no bounds check there and
`forward` cannot fail; bounds are enforced (or not) only by the
individual reads, and the slice-based `read_bytes` silently returns just
the available bytes, of length `min n (len - index)`, when the request
overruns. -/
theorem sab_C8_forward_unchecked :
    (∀ (d : Decoder) (c : Int),
      d.forward c = (d.index, { d with index := d.index + c })) ∧
    (∀ (data : List Nat) (i n : Nat),
      ((Decoder.mk data i).read_bytes n).1.length =
        min n (data.length - i)) := by
  constructor
  · intro d c
    rfl
  · intro data i n
    simp only [Decoder.read_bytes, Decoder.forward, pySlice,
      List.length_drop, List.length_take]
    omega

/-- C5: evaluation at the failing input.  When the unrecognized tag byte
`0xff` is the very first tag of a record, the source's error-message
construction subscripts the empty token list, raising `IndexError`,
which `read_records` silently swallows: the stream ends cleanly with no
unknown-tag error at all.  When at least one token precedes the bad tag,
the intended unknown-tag `ParsingError` is raised and propagates. -/
theorem sab_C5_unknown_tag_first_is_swallowed :
    Decoder.read_records ⟨[255], 0⟩ = .ok [] ∧
      Decoder.read_records ⟨[4, 255, 255, 255, 255, 200], 0⟩ =
        .error (.parsing "unknown SAB tag") := by
  decide

/-- C6, counterexample: a record whose `INT` tag is followed by fewer
than 4 bytes overruns the cursor inside `struct.unpack_from`, and that
`struct.error` is not an `IndexError`, so it propagates out of
`read_records` instead of terminating the stream cleanly. -/
theorem sab_C6_counterexample :
    Decoder.read_records ⟨[4], 0⟩ = .error .structError := by
  decide

/-- C6, amended: only a one-byte-read overrun (`IndexError`) terminates
the record stream cleanly — `read_records` can never surface an
`IndexError` — while an overrun during a 4-byte integer or 8-byte
double read surfaces as a `struct.error` (shown here for a truncated
tagged double), and a truncated string body does not overrun at all
(the slice silently returns short). -/
theorem sab_C6_only_index_errors_caught :
    (∀ (fuel : Nat) (d : Decoder),
      Decoder.read_records_loop fuel d ≠ .error .index) ∧
    Decoder.read_records ⟨[6], 0⟩ = .error .structError := by
  constructor
  · intro fuel
    induction fuel with
    | zero => intro d h; exact absurd h (by simp [Decoder.read_records_loop])
    | succ n ih =>
      intro d
      simp only [Decoder.read_records_loop]
      by_cases hd : d.has_data
      · simp only [hd, if_true]
        cases hrec : d.read_record with
        | ok p =>
          cases hrest : Decoder.read_records_loop n p.2 with
          | ok rest => simp [hrest, Except.map]
          | error e =>
            have hne := ih p.2
            rw [hrest] at hne
            simp only [hrest, Except.map]
            exact hne
        | error e =>
          cases e <;> simp
      · simp [hd]
  · decide

/-- Witness for C6's amended claim at a concrete stream state, alongside
the concrete truncated-double stream. -/
theorem sab_C6_witness :
    Decoder.read_records_loop 1 ⟨[255], 0⟩ ≠ .error .index ∧
      Decoder.read_records ⟨[6], 0⟩ = .error .structError :=
  ⟨sab_C6_only_index_errors_caught.1 1 ⟨[255], 0⟩,
   sab_C6_only_index_errors_caught.2⟩

/-- C4: when the buffer is exhausted before a terminator tag, the record
loop returns the accumulated record successfully exactly when that
record is non-empty and its first token's value is one of the reserved
end-of-data markers; in every other exhaustion case it raises the
premature-end-of-data `ParsingError`. -/
theorem sab_C4_exhaustion_end_marker (fuel : Nat) (values : SabRecord)
    (etype : List (List Nat)) (lvl : Int) (d : Decoder)
    (h : d.has_data = false) :
    (Decoder.read_record_loop (fuel + 1) values etype lvl d =
        .ok (values, d) ↔
      values ≠ [] ∧ isEndMarker values.headI.value = true) ∧
    (values = [] ∨ isEndMarker values.headI.value = false →
      Decoder.read_record_loop (fuel + 1) values etype lvl d =
        .error (.parsing "pre-mature end of data")) := by
  simp only [Decoder.read_record_loop, h]
  cases values with
  | nil => simp
  | cons t ts =>
    by_cases hm : isEndMarker t.value
    · simp [hm]
    · simp [hm]

/-- Witness for C4: an exhausted cursor with an accumulated
`"End-of-ACIS-data"` record is returned as complete; with an ordinary
accumulated token it is a premature-end error. -/
theorem sab_C4_witness :
    (Decoder.read_record_loop 1 [⟨14, .str endOfAcisData⟩] [] 0 ⟨[], 0⟩ =
        .ok ([⟨14, .str endOfAcisData⟩], ⟨[], 0⟩) ↔
      [(⟨14, .str endOfAcisData⟩ : Token)] ≠ [] ∧
        isEndMarker ([(⟨14, .str endOfAcisData⟩ : Token)]).headI.value =
          true) ∧
    ([(⟨4, .int 5⟩ : Token)] = [] ∨
        isEndMarker ([(⟨4, .int 5⟩ : Token)]).headI.value = false →
      Decoder.read_record_loop 1 [⟨4, .int 5⟩] [] 0 ⟨[], 0⟩ =
        .error (.parsing "pre-mature end of data")) :=
  ⟨(sab_C4_exhaustion_end_marker 0 [⟨14, .str endOfAcisData⟩] [] 0 ⟨[], 0⟩
      (by decide)).1,
   (sab_C4_exhaustion_end_marker 0 [⟨4, .int 5⟩] [] 0 ⟨[], 0⟩
      (by decide)).2⟩

/-- C3: a record whose first token is not an end marker becomes an
entity named by the first token with the second token as raw attribute
pointer; at version 700 and above the third token is the id and the
payload starts at the fourth token, below 700 the id defaults to `-1`
and the payload starts at the third token; an end-marker record yields
the terminal sentinel entity and stops the build. -/
theorem sab_C3_build_entities_layout :
    (∀ (t0 t1 t2 : Token) (tl : List Token) (rest : List SabRecord)
        (v : Int), isEndMarker t0.value = false → 700 ≤ v →
      build_entities ((t0 :: t1 :: t2 :: tl) :: rest) v =
        (build_entities rest v).map fun es =>
          { name := t0.value, attr_ptr := t1.value, id := t2.value,
            data := tl } :: es) ∧
    (∀ (t0 t1 : Token) (tl : List Token) (rest : List SabRecord) (v : Int),
      isEndMarker t0.value = false → v < 700 →
      build_entities ((t0 :: t1 :: tl) :: rest) v =
        (build_entities rest v).map fun es =>
          { name := t0.value, attr_ptr := t1.value, id := Value.int (-1),
            data := tl } :: es) ∧
    (∀ (t0 : Token) (tl : List Token) (rest : List SabRecord) (v : Int),
      isEndMarker t0.value = true →
      build_entities ((t0 :: tl) :: rest) v =
        .ok [{ name := t0.value, attr_ptr := Value.int (-1),
               id := Value.int (-1), data := [] }]) := by
  refine ⟨?_, ?_, ?_⟩
  · intro t0 t1 t2 tl rest v hm hv
    simp [build_entities, hm, ge_iff_le, hv]
  · intro t0 t1 tl rest v hm hv
    simp [build_entities, hm, ge_iff_le, not_le.mpr hv]
  · intro t0 tl rest v hm
    simp [build_entities, hm]

/-- Witness for C3: the same logical record at versions 700 and 400, and
an end-marker record. -/
theorem sab_C3_witness :
    (build_entities
        [[⟨14, .str [98, 111, 100, 121]⟩, ⟨12, .int (-1)⟩, ⟨4, .int 3⟩]]
        700 =
      (build_entities [] 700).map fun es =>
        { name := Value.str [98, 111, 100, 121], attr_ptr := .int (-1),
          id := Value.int 3, data := ([] : List Token) } :: es) ∧
    (build_entities [[⟨14, .str [98, 111, 100, 121]⟩, ⟨12, .int (-1)⟩]]
        400 =
      (build_entities [] 400).map fun es =>
        { name := Value.str [98, 111, 100, 121], attr_ptr := .int (-1),
          id := Value.int (-1), data := ([] : List Token) } :: es) ∧
    build_entities [[⟨14, .str endOfAcisData⟩]] 700 =
      .ok [{ name := .str endOfAcisData, attr_ptr := Value.int (-1),
             id := Value.int (-1), data := [] }] :=
  ⟨sab_C3_build_entities_layout.1 ⟨14, .str [98, 111, 100, 121]⟩
      ⟨12, .int (-1)⟩ ⟨4, .int 3⟩ [] [] 700 (by decide) (by decide),
   sab_C3_build_entities_layout.2.1 ⟨14, .str [98, 111, 100, 121]⟩
      ⟨12, .int (-1)⟩ [] [] 400 (by decide) (by decide),
   sab_C3_build_entities_layout.2.2 ⟨14, .str endOfAcisData⟩ [] [] 700
      (by decide)⟩

/-- C2: `read_header` recovers every encoded header field exactly — for
any buffer that starts with one of the two signatures (checked ACIS
first, then ASM) and continues with well-formed fields (in-range int32
values, UTF-8 strings, a creation date matching the fixed date
pattern), it returns the encoded version, record count, entity count,
flags, product-id string, ACIS-version string, creation-date string and
units-in-mm double (strings byte-for-byte, doubles bit-for-bit),
consuming but not retaining the two trailing tolerance doubles; a date
string that does not match the fixed pattern raises `strptime`'s
`ValueError` instead; a buffer starting with neither signature is
rejected with the not-a-SAB-file parse error; and a short-string or
tagged-double field whose leading tag byte is not the expected kind
raises the corresponding tag parse error. -/
theorem sab_C2_read_header_framing :
    (∀ sig, (sig = acisSignature ∨ sig = asmSignature) →
      ∀ ver nrec nent flags : Int,
        -2147483648 ≤ ver → ver < 2147483648 →
        -2147483648 ≤ nrec → nrec < 2147483648 →
        -2147483648 ≤ nent → nent < 2147483648 →
        -2147483648 ≤ flags → flags < 2147483648 →
      ∀ pid aver date : List Nat,
        isValidUtf8 pid = true → isValidUtf8 aver = true →
        isValidUtf8 date = true → matchesDateFmt date = true →
      ∀ units res_tol nor_tol : Nat,
        units < 18446744073709551616 →
        res_tol < 18446744073709551616 →
        nor_tol < 18446744073709551616 →
      ∀ rest DATA : List Nat,
        DATA = encodeHeader sig ver nrec nent flags pid aver date units
          res_tol nor_tol ++ rest →
        Decoder.read_header ⟨DATA, 0⟩ =
          .ok ({ version := ver, n_records := nrec, n_entities := nent,
                 flags := flags, product_id := pid, acis_version := aver,
                 creation_date := date, units_in_mm := units },
               ⟨DATA,
                ((DATA.length : Nat) : Int) - (rest.length : Int)⟩)) ∧
    (∀ sig, (sig = acisSignature ∨ sig = asmSignature) →
      ∀ ver nrec nent flags : Int,
        -2147483648 ≤ ver → ver < 2147483648 →
        -2147483648 ≤ nrec → nrec < 2147483648 →
        -2147483648 ≤ nent → nent < 2147483648 →
        -2147483648 ≤ flags → flags < 2147483648 →
      ∀ pid aver date : List Nat,
        isValidUtf8 pid = true → isValidUtf8 aver = true →
        isValidUtf8 date = true → matchesDateFmt date = false →
      ∀ units res_tol nor_tol : Nat, ∀ rest DATA : List Nat,
        DATA = encodeHeader sig ver nrec nent flags pid aver date units
          res_tol nor_tol ++ rest →
        Decoder.read_header ⟨DATA, 0⟩ = .error .valueError) ∧
    (∀ (data : List Nat) (i : Int),
      acisSignature.isPrefixOf data = false →
      asmSignature.isPrefixOf data = false →
      Decoder.read_header ⟨data, i⟩ =
        .error (.parsing "not a SAB file")) ∧
    (∀ (data : List Nat) (i : Int) (b : Nat) (d1 : Decoder),
      Decoder.read_byte ⟨data, i⟩ = .ok (b, d1) → b ≠ Tags.STR →
      Decoder.read_str_tag ⟨data, i⟩ =
        .error (.parsing "string tag (7) not found")) ∧
    (∀ (data : List Nat) (i : Int) (b : Nat) (d1 : Decoder),
      Decoder.read_byte ⟨data, i⟩ = .ok (b, d1) → b ≠ Tags.DOUBLE →
      Decoder.read_double_tag ⟨data, i⟩ =
        .error (.parsing "double tag (6) not found")) := by
  refine ⟨?_, ?_, ?_, ?_, ?_⟩
  · intro sig hsig ver nrec nent flags hv1 hv2 hn1 hn2 he1 he2 hf1 hf2
      pid aver date hpu hau hdu hdf units res_tol nor_tol hu hr hn rest
      DATA hD0
    exact read_header_round_trip sig hsig ver nrec nent flags hv1 hv2
      hn1 hn2 he1 he2 hf1 hf2 pid aver date hpu hau hdu hdf units
      res_tol nor_tol hu hr hn rest DATA hD0
  · intro sig hsig ver nrec nent flags hv1 hv2 hn1 hn2 he1 he2 hf1 hf2
      pid aver date hpu hau hdu hdf units res_tol nor_tol rest DATA hD0
    exact read_header_bad_date sig hsig ver nrec nent flags hv1 hv2
      hn1 hn2 he1 he2 hf1 hf2 pid aver date hpu hau hdu hdf units
      res_tol nor_tol rest DATA hD0
  · intro data i h1 h2
    simp only [Decoder.read_header, h1, h2, Bool.false_eq_true, if_false]
    rfl
  · intro data i b d1 hread hne
    simp only [Decoder.read_str_tag, hread, bind_ok_eq]
    rw [if_neg hne]
  · intro data i b d1 hread hne
    simp only [Decoder.read_double_tag, hread, bind_ok_eq]
    rw [if_neg hne]

/-- The conforming creation-date string of the C2 witness:
`"Sat Jan 01 10:20:30 2022"` as bytes. -/
def c2date : List Nat :=
  [83, 97, 116, 32, 74, 97, 110, 32, 48, 49, 32, 49, 48, 58, 50, 48,
   58, 51, 48, 32, 50, 48, 50, 50]

/-- Concrete well-formed header image for the C2 witness. -/
def c2data : List Nat :=
  encodeHeader acisSignature 700 1 1 0 [65] [50] c2date 1 2 3 ++ []

/-- A header image identical to `c2data` except that its creation-date
string is the single byte `"D"`, which does not match the date
pattern. -/
def c2badData : List Nat :=
  encodeHeader acisSignature 700 1 1 0 [65] [50] [68] 1 2 3 ++ []

/-- Witness for C2: a concrete header image decodes to its field values;
the same image with a malformed date string raises `ValueError`; a
buffer starting with neither signature fails; wrong leading tag bytes
fail for both tagged field forms. -/
theorem sab_C2_witness :
    Decoder.read_header ⟨c2data, 0⟩ =
      .ok ({ version := 700, n_records := 1, n_entities := 1, flags := 0,
             product_id := [65], acis_version := [50],
             creation_date := c2date, units_in_mm := 1 },
           ⟨c2data,
            ((c2data.length : Nat) : Int) -
              ((([] : List Nat)).length : Int)⟩) ∧
    Decoder.read_header ⟨c2badData, 0⟩ = .error .valueError ∧
    Decoder.read_header ⟨[0, 1, 2], 0⟩ =
      .error (.parsing "not a SAB file") ∧
    Decoder.read_str_tag ⟨[6, 0], 0⟩ =
      .error (.parsing "string tag (7) not found") ∧
    Decoder.read_double_tag ⟨[7, 0], 0⟩ =
      .error (.parsing "double tag (6) not found") :=
  ⟨sab_C2_read_header_framing.1 acisSignature (Or.inl rfl) 700 1 1 0
      (by decide) (by decide) (by decide) (by decide) (by decide)
      (by decide) (by decide) (by decide) [65] [50] c2date (by decide)
      (by decide) (by decide) (by decide) 1 2 3 (by decide) (by decide)
      (by decide) [] c2data rfl,
   sab_C2_read_header_framing.2.1 acisSignature (Or.inl rfl) 700 1 1 0
      (by decide) (by decide) (by decide) (by decide) (by decide)
      (by decide) (by decide) (by decide) [65] [50] [68] (by decide)
      (by decide) (by decide) (by decide) 1 2 3 [] c2badData rfl,
   sab_C2_read_header_framing.2.2.1 [0, 1, 2] 0 (by decide) (by decide),
   sab_C2_read_header_framing.2.2.2.1 [6, 0] 0 6 ⟨[6, 0], 1⟩ (by decide)
      (by decide),
   sab_C2_read_header_framing.2.2.2.2 [7, 0] 0 7 ⟨[7, 0], 1⟩ (by decide)
      (by decide)⟩

/-- C1: in a successfully resolved graph every attributes slot and every
`POINTER`-tagged payload token holds an entity reference (never a raw
integer); the reference is the shared null sentinel — the single
`EntityRef.nullPtr` value, denoting the one module-level `NULL_PTR`
object — exactly when the raw index was `-1`, and a raw index `n ≥ 0`
resolves to the entity at list position `n`, which may lie after the
referencing entity (forward references); all other tokens are left
unchanged. -/
theorem sab_C1_resolved_graph_invariant (es res : List SabEntity)
    (hvals : ∀ e ∈ es, e.attr_ptr.isInt = true ∧
      ∀ t ∈ e.data, t.tag = Tags.POINTER → t.value.isInt = true)
    (hok : resolve_pointers es = .ok res) :
    res.length = es.length ∧
    ∀ i, i < es.length →
      (∃ r, (res.getD i default).attributes = some r ∧
        (r = .nullPtr ↔ (es.getD i default).attr_ptr = .int (-1)) ∧
        (∀ n : Int, (es.getD i default).attr_ptr = .int n → 0 ≤ n →
          r = .idx n.toNat ∧ n.toNat < es.length)) ∧
      (res.getD i default).data.length = (es.getD i default).data.length ∧
      (∀ k, k < (es.getD i default).data.length →
        (((es.getD i default).data.getD k default).tag = Tags.POINTER →
          ∃ r, (res.getD i default).data.getD k default =
              ⟨Tags.POINTER, .entity r⟩ ∧
            (r = .nullPtr ↔
              ((es.getD i default).data.getD k default).value =
                .int (-1)) ∧
            (∀ n : Int,
              ((es.getD i default).data.getD k default).value = .int n →
              0 ≤ n → r = .idx n.toNat ∧ n.toNat < es.length)) ∧
        (((es.getD i default).data.getD k default).tag ≠ Tags.POINTER →
          (res.getD i default).data.getD k default =
            (es.getD i default).data.getD k default)) := by
  obtain ⟨hlen, hget⟩ := resolve_list_ok_parts hok
  refine ⟨hlen, ?_⟩
  intro i hi
  have hmem : es.getD i default ∈ es := by
    rw [List.getD_eq_getElem es default hi]
    exact List.getElem_mem hi
  obtain ⟨hattr_int, hdata_int⟩ := hvals _ hmem
  obtain ⟨a, data1, hpa, hpd, hres⟩ := resolve_entity_ok_parts (hget i hi)
  obtain ⟨hdlen, hdk⟩ := resolve_data_ok_parts hpd
  rw [hres]
  obtain ⟨na, hna⟩ := Value.isInt_iff.mp hattr_int
  refine ⟨⟨a, rfl, ?_, ?_⟩, by simpa using hdlen, ?_⟩
  · rw [hna] at hpa ⊢
    rw [ptr_int_ok_nullPtr_iff hpa]
    simp
  · intro n hn h0
    rw [hn] at hpa
    obtain ⟨j, hj, hjlt, hjn, -⟩ := ptr_int_ok_idx (by omega) hpa
    have : (j : Int) = n := hjn h0
    constructor
    · rw [hj]; congr 1; omega
    · omega
  · intro k hk
    have htmem : (es.getD i default).data.getD k default ∈
        (es.getD i default).data := by
      rw [List.getD_eq_getElem _ default hk]
      exact List.getElem_mem hk
    obtain ⟨hptr_case, hother_case⟩ := hdk k hk
    constructor
    · intro htag
      obtain ⟨r, hr, hr1⟩ := hptr_case htag
      obtain ⟨nt, hnt⟩ :=
        Value.isInt_iff.mp (hdata_int _ htmem htag)
      rw [hnt] at hr
      refine ⟨r, by rw [hr1, htag], ?_, ?_⟩
      · rw [ptr_int_ok_nullPtr_iff hr, hnt]
        simp
      · intro n hn h0
        rw [hnt] at hn
        obtain rfl : n = nt := by
          injection hn with h
          exact h.symm
        obtain ⟨j, hj, hjlt, hjn, -⟩ := ptr_int_ok_idx (by omega) hr
        have : (j : Int) = n := hjn h0
        constructor
        · rw [hj]; congr 1; omega
        · omega
    · intro htag
      exact hother_case htag

/-- Concrete graph for the C1 witness: entity 0 points forward to entity
1 through its attribute pointer and holds a `-1` payload pointer;
entity 1 points back to entity 0 and has a `-1` attribute pointer. -/
def c1Unresolved : List SabEntity :=
  [{ name := .str [97], attr_ptr := .int 1, id := .int 3,
     data := [⟨12, .int (-1)⟩] },
   { name := .str [98], attr_ptr := .int (-1), id := .int 4,
     data := [⟨12, .int 0⟩] }]

/-- The resolved form of `c1Unresolved`. -/
def c1Resolved : List SabEntity :=
  [{ name := .str [97], attr_ptr := .int (-1), id := .int 3,
     data := [⟨12, .entity .nullPtr⟩], attributes := some (.idx 1) },
   { name := .str [98], attr_ptr := .int (-1), id := .int 4,
     data := [⟨12, .entity (.idx 0)⟩], attributes := some .nullPtr }]

/-- Witness for C1 on a two-entity graph with a forward reference and
shared `-1` null references. -/
theorem sab_C1_witness :
    c1Resolved.length = c1Unresolved.length ∧
    ∀ i, i < c1Unresolved.length →
      (∃ r, (c1Resolved.getD i default).attributes = some r ∧
        (r = .nullPtr ↔
          (c1Unresolved.getD i default).attr_ptr = .int (-1)) ∧
        (∀ n : Int, (c1Unresolved.getD i default).attr_ptr = .int n →
          0 ≤ n → r = .idx n.toNat ∧ n.toNat < c1Unresolved.length)) ∧
      (c1Resolved.getD i default).data.length =
        (c1Unresolved.getD i default).data.length ∧
      (∀ k, k < (c1Unresolved.getD i default).data.length →
        (((c1Unresolved.getD i default).data.getD k default).tag =
            Tags.POINTER →
          ∃ r, (c1Resolved.getD i default).data.getD k default =
              ⟨Tags.POINTER, .entity r⟩ ∧
            (r = .nullPtr ↔
              ((c1Unresolved.getD i default).data.getD k default).value =
                .int (-1)) ∧
            (∀ n : Int,
              ((c1Unresolved.getD i default).data.getD k
                  default).value = .int n →
              0 ≤ n → r = .idx n.toNat ∧
                n.toNat < c1Unresolved.length)) ∧
        (((c1Unresolved.getD i default).data.getD k default).tag ≠
            Tags.POINTER →
          (c1Resolved.getD i default).data.getD k default =
            (c1Unresolved.getD i default).data.getD k default)) :=
  sab_C1_resolved_graph_invariant c1Unresolved c1Resolved
    (by decide) (by decide)

/-- C7, counterexample: a raw attribute-pointer index of `-2` (below
`-1`) does not raise a dangling-reference error — on a two-entity list
it resolves, via Python negative indexing, to the entity at position 0,
and the whole resolution succeeds. -/
theorem sab_C7_counterexample :
    resolve_pointers
        [{ name := .str [97], attr_ptr := .int (-2) },
         { name := .str [98], attr_ptr := .int (-1) }] =
      .ok [{ name := .str [97], attr_ptr := .int (-1),
             attributes := some (.idx 0) },
           { name := .str [98], attr_ptr := .int (-1),
             attributes := some .nullPtr }] := by
  decide

/-- C7, amended: the resolver's index rule is Python list subscripting:
`-1` maps to the null sentinel; a raw index `n` with `0 ≤ n < len`
resolves to the entity at position `n`; a raw index `n` with
`-len ≤ n < -1` resolves, by negative indexing, to the entity at
position `n + len`; only `n ≥ len` or `n < -len` raise the fatal
(uncaught) `IndexError`. -/
theorem sab_C7_out_of_range_rule (len : Nat) (n : Int) (hn : n ≠ -1) :
    ((n < -(len : Int) ∨ (len : Int) ≤ n) →
      ptr len (.int n) = .error .index) ∧
    (0 ≤ n → n < (len : Int) → ptr len (.int n) = .ok (.idx n.toNat)) ∧
    (-(len : Int) ≤ n → n < -1 →
      ptr len (.int n) = .ok (.idx (n + len).toNat)) := by
  refine ⟨?_, ?_, ?_⟩
  · intro hout
    by_cases hneg : n < 0
    · simp only [ptr, if_neg hn, if_pos hneg]
      rw [if_neg (by omega)]
    · simp only [ptr, if_neg hn, if_neg hneg]
      rw [if_neg (by omega)]
  · intro h0 hlt
    simp only [ptr, if_neg hn, if_neg (by omega : ¬ n < 0)]
    rw [if_pos (by omega)]
  · intro hge hlt
    simp only [ptr, if_neg hn, if_pos (by omega : n < 0)]
    rw [if_pos (by omega)]

/-- Witness for C7 on a two-element list: index 5 raises, index 1
resolves to position 1, index `-2` resolves to position 0. -/
theorem sab_C7_witness :
    ptr 2 (.int 5) = .error .index ∧ ptr 2 (.int 1) = .ok (.idx 1) ∧
      ptr 2 (.int (-2)) = .ok (.idx 0) := by
  refine ⟨?_, ?_, ?_⟩
  · exact (sab_C7_out_of_range_rule 2 5 (by decide)).1 (by norm_num)
  · simpa using
      (sab_C7_out_of_range_rule 2 1 (by decide)).2.1 (by norm_num)
        (by norm_num)
  · simpa using
      (sab_C7_out_of_range_rule 2 (-2) (by decide)).2.2 (by norm_num)
        (by norm_num)

/-- C9, counterexample: resolving a second time is neither a no-op nor
rejected.  A one-entity graph whose entity's attribute pointer was `0`
resolves to `attributes = idx 0`; because the first run reset
`attr_ptr` to `-1`, the second run silently rewrites `attributes` to
the null sentinel. -/
theorem sab_C9_counterexample :
    resolve_pointers
        [{ name := .str [98, 111, 100, 121], attr_ptr := .int 0,
           id := .int 3 }] =
      .ok [{ name := .str [98, 111, 100, 121], attr_ptr := .int (-1),
             id := .int 3, attributes := some (.idx 0) }] ∧
    resolve_pointers
        [{ name := .str [98, 111, 100, 121], attr_ptr := .int (-1),
           id := .int 3, attributes := some (.idx 0) }] =
      .ok [{ name := .str [98, 111, 100, 121], attr_ptr := .int (-1),
             id := .int 3, attributes := some .nullPtr }] := by
  decide

/-- C9, amended: on an already-resolved list, a second resolution run
resets every attributes slot to the null sentinel (the first run
cleared every `attr_ptr` to `-1`) when no payload pointer tokens exist,
and raises a `TypeError` (a pointer token now holds an entity
reference, not an integer subscript) as soon as any entity carries a
pointer-tagged payload token; it is never a silent faithful no-op for a
graph with at least one non-null attribute reference. -/
theorem sab_C9_second_run_rewrites (es res : List SabEntity)
    (hok : resolve_pointers es = .ok res) :
    ((∀ e ∈ res, ∀ t ∈ e.data, t.tag ≠ Tags.POINTER) →
      ∃ res2, resolve_pointers res = .ok res2 ∧
        res2.length = res.length ∧
        ∀ i, i < res.length →
          (res2.getD i default).attributes = some .nullPtr) ∧
    ((∃ e ∈ res, ∃ t ∈ e.data, t.tag = Tags.POINTER) →
      resolve_pointers res = .error .typeError) := by
  have hattr : ∀ e1 ∈ res, e1.attr_ptr = .int (-1) := by
    intro e1 h1
    obtain ⟨e, -, he⟩ := resolve_list_ok_mem hok e1 h1
    obtain ⟨a, data1, -, -, hres⟩ := resolve_entity_ok_parts he
    rw [hres]
  have hent : ∀ e1 ∈ res, ∀ t ∈ e1.data, t.tag = Tags.POINTER →
      ∃ r, t.value = .entity r := by
    intro e1 h1
    obtain ⟨e, -, he⟩ := resolve_list_ok_mem hok e1 h1
    obtain ⟨a, data1, -, hpd, hres⟩ := resolve_entity_ok_parts he
    intro t ht
    rw [hres] at ht
    exact resolve_data_ok_mem_entity hpd t ht
  constructor
  · intro hnoptr
    refine ⟨res.map fun e =>
      { e with attributes := some .nullPtr, attr_ptr := .int (-1) },
      ?_, by simp, ?_⟩
    · show resolve_list res.length res = _
      generalize hlen : res.length = len
      clear hok hent hlen
      induction res with
      | nil => simp [resolve_list]
      | cons e rest ih =>
        have he : resolve_entity len e =
            .ok { e with
              attributes := some .nullPtr,
              attr_ptr := .int (-1) } := by
          have ha := hattr e (List.mem_cons_self e rest)
          have hd := @resolve_data_no_ptr len e.data
            (hnoptr e (List.mem_cons_self e rest))
          simp only [resolve_entity, ha, ptr_int_neg_one, hd, Except.map]
        have hrest := ih
          (fun x hx => hattr x (List.mem_cons_of_mem e hx))
          (fun x hx => hnoptr x (List.mem_cons_of_mem e hx))
        simp [resolve_list, he, hrest, Except.map]
    · intro i hi
      rw [List.getD_eq_getElem _ default (by simpa using hi)]
      simp [List.getElem_map]
  · intro hsome
    show resolve_list res.length res = _
    generalize hlen : res.length = len
    clear hok hlen
    induction res with
    | nil => simp at hsome
    | cons e rest ih =>
      by_cases heptr : ∃ t ∈ e.data, t.tag = Tags.POINTER
      · have hfail : resolve_entity len e = .error .typeError := by
          have ha := hattr e (List.mem_cons_self e rest)
          have hd := @resolve_data_entity_ptr_fails len e.data heptr
            (hent e (List.mem_cons_self e rest))
          simp [resolve_entity, ha, ptr_int_neg_one, hd, Except.map]
        simp [resolve_list, hfail]
      · have hclean : ∀ t ∈ e.data, t.tag ≠ Tags.POINTER := by
          intro t ht
          exact fun htag => heptr ⟨t, ht, htag⟩
        have he : resolve_entity len e =
            .ok { e with
              attributes := some .nullPtr,
              attr_ptr := .int (-1) } := by
          have ha := hattr e (List.mem_cons_self e rest)
          have hd := @resolve_data_no_ptr len e.data hclean
          simp only [resolve_entity, ha, ptr_int_neg_one, hd, Except.map]
        have hsome1 : ∃ e1 ∈ rest, ∃ t ∈ e1.data,
            t.tag = Tags.POINTER := by
          obtain ⟨e1, he1, ht⟩ := hsome
          rcases List.mem_cons.mp he1 with h1 | h1
          · exact absurd (h1 ▸ ht) (by simpa using heptr)
          · exact ⟨e1, h1, ht⟩
        have hrest := ih
          (fun x hx => hattr x (List.mem_cons_of_mem e hx))
          (fun x hx => hent x (List.mem_cons_of_mem e hx)) hsome1
        simp [resolve_list, he, hrest, Except.map]

/-- Witness for C9's amended claim: the one-entity graph of the
counterexample scenario, rerun through the theorem. -/
theorem sab_C9_witness :
    ∃ res2, resolve_pointers
        [{ name := .str [98, 111, 100, 121], attr_ptr := .int (-1),
           id := .int 3,
           attributes := some (.idx 0) }] = .ok res2 ∧
      res2.length = 1 ∧
      ∀ i, i < 1 → (res2.getD i default).attributes = some .nullPtr :=
  (sab_C9_second_run_rewrites
      [{ name := .str [98, 111, 100, 121], attr_ptr := .int 0,
         id := .int 3 }]
      [{ name := .str [98, 111, 100, 121], attr_ptr := .int (-1),
         id := .int 3, attributes := some (.idx 0) }]
      (by decide)).1 (by decide)

end SabSpec
